import Mathlib

/-
  Shallow embedding of the manifest-driven corpus ingester
  (src/ingest/fetch_seed.py, src/ingest/usaspending_fetch.py,
  src/ingest/news_fetch.py).

  Machine time is modelled as Nat; byte strings as List Nat; external
  collaborators (urllib's URL parsing, the HTTP session, the SHA-256 digest
  from hashlib, the ADLS / local filesystem write outcomes, the timestamp
  formatter and the random jitter) are supplied through a `World` record of
  oracle functions, so every definition stays executable.  Effects
  (robots.txt retrievals, HTTP requests, storage writes) are reified as an
  event trace; uncaught Python exceptions are `Except.error`.
-/

namespace SeedIngest

/-! ## String helpers mirroring the Python operations used by the scripts -/

/-- Boolean infix test on character lists. -/
def listInfix (pat s : List Char) : Bool :=
  (List.range (s.length + 1)).any (fun i => pat.isPrefixOf (s.drop i))

/-- Python `pat in s` substring test. -/
def strContains (s pat : String) : Bool :=
  listInfix pat.data s.data

/-- Python `.strip()` on a character list. -/
def trimList (l : List Char) : List Char :=
  ((l.dropWhile Char.isWhitespace).reverse.dropWhile Char.isWhitespace).reverse

/-- Python `s.split(c)` for a one-character separator. -/
def splitList (c : Char) : List Char → List (List Char)
  | [] => [[]]
  | x :: xs =>
    if x = c then [] :: splitList c xs
    else
      match splitList c xs with
      | [] => [[x]]
      | h :: t => (x :: h) :: t

/-- Drop a matching run from the right of a character list (Python
`.rstrip` with a one-character set). -/
def dropRightWhileList (p : Char → Bool) (l : List Char) : List Char :=
  (l.reverse.dropWhile p).reverse

/-- Python `s.lower()` (ASCII range). -/
def strToLower (s : String) : String :=
  String.mk (s.data.map Char.toLower)

/-- Python `s.replace(c1, c2)` for one-character arguments. -/
def replaceChar (c1 c2 : Char) (s : String) : String :=
  String.mk (s.data.map (fun c => if c = c1 then c2 else c))

/-- Python `s.endswith(suf)`. -/
def strEndsWith (s suf : String) : Bool :=
  suf.data.isSuffixOf s.data

/-- fetch_seed.build_output_paths: keep alphanumerics and `-` `_`, replace the
rest with `_`, then Python `.strip("_-")` on both ends. -/
def sanitizeName (s : String) : String :=
  let kept := s.data.map (fun c => if c.isAlphanum || c = '-' || c = '_' then c else '_')
  let t := kept.dropWhile (fun c => c = '_' || c = '-')
  String.mk (t.reverse.dropWhile (fun c => c = '_' || c = '-')).reverse

/-- fetch_seed lines 225-228: `parsed.path.rstrip("/").split("/")[-1] or "index"`,
then append `.html` when the basename has no dot. -/
def basenameOf (path : String) : String :=
  let b :=
    match (splitList '/' (dropRightWhileList (· = '/') path.data)).getLast? with
    | some x => x
    | none => []
  let b := if b = [] then ("index").data else b
  if b.contains '.' then String.mk b else String.mk b ++ ".html"

/-- Index of the last `.` in a character list, if any. -/
def lastDotIdx (cs : List Char) : Option Nat :=
  ((List.range cs.length).filter (fun i => cs.getD i ' ' = '.')).getLast?

/-- Python `os.path.splitext(s)[1]`: the extension starting at the last dot, empty when
there is no dot or only leading dots precede it. -/
def splitextExt (s : String) : String :=
  let cs := s.data
  match lastDotIdx cs with
  | none => ""
  | some i => if (cs.take i).any (fun c => c ≠ '.') then String.mk (cs.drop i) else ""

/-- fetch_seed lines 240-243 / 284-287: split `api_params` on `&`, keep parts
containing `=`, split each at the first `=`, strip both sides. -/
def parseParams (s : String) : List (String × String) :=
  (splitList '&' s.data).filterMap (fun p =>
    if p.contains '=' then
      let k := p.takeWhile (fun c => c ≠ '=')
      let v := p.drop (k.length + 1)
      some (String.mk (trimList k), String.mk (trimList v))
    else none)

/-- Python `k in params` for the parsed parameter dictionary. -/
def hasKey (ps : List (String × String)) (k : String) : Bool :=
  (ps.map Prod.fst).contains k

/-- Python `int(str)`: optional surrounding whitespace, optional sign, digits. -/
def parsePyInt (s : String) : Option Int :=
  let t := trimList s.data
  match t with
  | [] => none
  | c :: rest =>
    let digits := if c = '-' || c = '+' then rest else t
    let negative := c = '-'
    if digits ≠ [] ∧ digits.all Char.isDigit then
      let m : Nat := digits.foldl (fun acc d => acc * 10 + (d.toNat - 48)) 0
      some (if negative then -(m : Int) else (m : Int))
    else none

/-! ## Data model -/

/-- One manifest row (fetch_seed lines 214-220); a missing CSV field is the
empty string, matching Python's `row.get(k) or ""`. -/
structure Row where
  source_name : String
  source : String
  url : String
  fetch_method : String
  api_endpoint_or_params : String
  notes : String
deriving Repr, DecidableEq

/-- fetch_seed line 215: `row.get("source_name") or row.get("source") or "unnamed"`. -/
def sourceNameOf (row : Row) : String :=
  if row.source_name ≠ "" then row.source_name
  else if row.source ≠ "" then row.source
  else "unnamed"

/-- fetch_seed.build_output_paths (lines 193-197); `date_part` is the formatted
UTC date. -/
def build_output_paths (source_name date_part : String) : String :=
  "anduril/" ++ sanitizeName source_name ++ "/" ++ date_part

/-- The result of `urllib.robotparser` successfully reading a robots.txt:
its `can_fetch` answer for our user agent, and the crawl delays for the
named agent and for `*`.  A raising `crawl_delay` call is folded into `none`. -/
structure RobotsParser where
  can_fetch : String → Bool
  crawl_delay_ua : Option Nat
  crawl_delay_star : Option Nat

/-- One HTTP response as the scripts consume it. -/
structure Response where
  status_code : Nat
  content : List Nat
  content_type : String
  etag : Option String
  retry_after : Option String
deriving Repr, DecidableEq

/-- Outcome of `SESSION.get`: a response, or a raised `requests.RequestException`. -/
inductive NetAttempt where
  | err : String → NetAttempt
  | ok : Response → NetAttempt
deriving Repr, DecidableEq

/-- One actual network request as observed on the trace: start and finish
clock, whether it succeeded, and the effective delay the rate limiter used
while waiting for it. -/
structure ReqRec where
  start : Nat
  finish : Nat
  ok : Bool
  delay : Nat
deriving Repr, DecidableEq

/-- A metadata sidecar's JSON contents (union of the shapes built at
fetch_seed lines 253-259, 295-301, 326-332 and 379-390). -/
structure Meta where
  source_name : String
  url : String
  fetched_at : String
  http_status : Option Nat
  content_type : Option String
  content_length : Option Nat
  etag : Option (Option String)
  checksum_sha256 : Option String
  skipped_by_robots : Option Bool
  notes : String
  manifest_row : Option Row
deriving Repr, DecidableEq

/-- What a storage write commits: raw bytes or a metadata JSON document. -/
inductive Payload where
  | bytes : List Nat → Payload
  | meta : Meta → Payload
deriving Repr, DecidableEq

/-- Reified effects of fetch_seed: a robots.txt retrieval attempt, an actual
HTTP request, or a durable storage write. -/
inductive Event where
  | robotsFetch : Option String → Event
  | request : Option String → ReqRec → Event
  | commit : String → String → Payload → Event
deriving Repr, DecidableEq

/-- The external world: URL parsing, robots retrieval results, network
outcomes keyed by URL, request durations, hashlib's SHA-256 hex digest,
write success of the ADLS and local backends keyed by filename, the
timestamp formatter and the jitter source. -/
structure World where
  getDomain : String → Option String
  getPath : String → String
  robots : Option String → Option RobotsParser
  net : String → NetAttempt
  dur : String → Nat
  sha256_hex : List Nat → String
  adlsOk : String → Bool
  localOk : String → Bool
  fmtTs : Nat → String
  jit : Nat → Nat

/-! ## Domain rate limiter (fetch_seed lines 54-56, 124-149) -/

/-- The two module-level dictionaries `domain_last_request` and
`domain_crawl_delay`.  Keys are `Option String` because Python indexes the
dictionaries with `None` when the URL has no parseable domain. -/
structure LimiterState where
  domain_last_request : Option String → Option Nat
  domain_crawl_delay : Option String → Option Nat

/-- Both dictionaries start empty (fetch_seed lines 55-56). -/
def initState : LimiterState :=
  ⟨fun _ => none, fun _ => none⟩

/-- DEFAULT_CRAWL_DELAY (fetch_seed line 46), in whole time units. -/
def DEFAULT_CRAWL_DELAY : Nat := 5

/-- Reading `domain_crawl_delay.get(domain, DEFAULT_CRAWL_DELAY)` (line 126). -/
def effectiveDelay (s : LimiterState) (d : Option String) : Nat :=
  (s.domain_crawl_delay d).getD DEFAULT_CRAWL_DELAY

/-- fetch_seed.wait_for_domain (lines 124-132): returns the clock value at
which the next request may start; `j` is the sampled `random.uniform(0, 1)`
jitter. -/
def wait_for_domain (s : LimiterState) (d : Option String) (now j : Nat) : Nat :=
  match s.domain_last_request d with
  | none => now
  | some last =>
    let delay := effectiveDelay s d
    let elapsed := now - last
    if elapsed < delay then now + (delay - elapsed + j) else now

/-- Pointwise update of one dictionary entry. -/
def updateKey (f : Option String → Option Nat) (d : Option String) (v : Nat) :
    Option String → Option Nat :=
  fun d' => if d' = d then some v else f d'

/-- fetch_seed.record_domain_request (lines 135-149): store the
robots-declared crawl delay when one exists (named agent first, then `*`),
then stamp `domain_last_request[domain] = now`. -/
def record_domain_request (s : LimiterState) (d : Option String)
    (rp : Option RobotsParser) (now : Nat) : LimiterState :=
  let s1 :=
    match rp with
    | none => s
    | some p =>
      match p.crawl_delay_ua with
      | some cd => { s with domain_crawl_delay := updateKey s.domain_crawl_delay d cd }
      | none =>
        match p.crawl_delay_star with
        | some cd => { s with domain_crawl_delay := updateKey s.domain_crawl_delay d cd }
        | none => s
  { s1 with domain_last_request := updateKey s1.domain_last_request d now }

/-! ## Robots retrieval and polite_fetch (fetch_seed lines 112-170) -/

/-- fetch_seed.get_robots_parser_for_domain (lines 112-121): every call
attempts a fresh retrieval of `https://{domain}/robots.txt` (there is no
cache); a failed retrieval yields `none`.  The emitted event records the
network attempt. -/
def get_robots_parser_for_domain (w : World) (d : Option String) :
    Option RobotsParser × List Event :=
  (w.robots d, [Event.robotsFetch d])

/-- The dictionary polite_fetch returns, as a tagged result. -/
inductive PFResult where
  | skipped : PFResult
  | failed : String → PFResult
  | success : Response → PFResult
deriving Repr, DecidableEq

/-- Line 154: `rp = get_robots_parser_for_domain(domain) if domain else None`
— the parser polite_fetch consults. -/
def effRp (w : World) (url : String) : Option RobotsParser :=
  match w.getDomain url with
  | none => none
  | some d => (get_robots_parser_for_domain w (some d)).1

/-- The robots retrieval attempt of line 154 on the trace (absent when no
domain parsed). -/
def robotsEv (w : World) (url : String) : List Event :=
  match w.getDomain url with
  | none => []
  | some d => (get_robots_parser_for_domain w (some d)).2

/-- Lines 155-158: skip only when a parser was obtained and it denies the
URL; a missing parser (no domain, or failed retrieval) never blocks. -/
def robotsDisallows (w : World) (url : String) : Bool :=
  match effRp w url with
  | some p => !(p.can_fetch url)
  | none => false

/-- fetch_seed.polite_fetch (lines 152-170): robots lookup (only when a
domain parsed), robots gate, rate-limit wait, the request itself, and
`record_domain_request` only on the success path. -/
def polite_fetch (w : World) (s : LimiterState) (clock : Nat) (url : String) (j : Nat) :
    LimiterState × Nat × List Event × PFResult :=
  if robotsDisallows w url then (s, clock, robotsEv w url, PFResult.skipped)
  else
    let d := w.getDomain url
    let start := wait_for_domain s d clock j
    let finish := start + w.dur url
    match w.net url with
    | NetAttempt.ok r =>
      (record_domain_request s d (effRp w url) finish, finish,
        robotsEv w url ++ [Event.request d ⟨start, finish, true, effectiveDelay s d⟩],
        PFResult.success r)
    | NetAttempt.err e =>
      (s, finish, robotsEv w url ++ [Event.request d ⟨start, finish, false, effectiveDelay s d⟩],
        PFResult.failed e)

/-- One call to polite_fetch inside a longer run: the URL, the sampled
jitter, and the wall-clock time spent on other work before the call. -/
structure PFCall where
  url : String
  j : Nat
  gap : Nat

/-- A sequential run of polite_fetch calls sharing the module-level limiter
state, accumulating the event trace. -/
def runPolite (w : World) : LimiterState → Nat → List PFCall → LimiterState × Nat × List Event
  | s, clock, [] => (s, clock, [])
  | s, clock, c :: rest =>
    let r1 := polite_fetch w s (clock + c.gap) c.url c.j
    let r2 := runPolite w r1.1 r1.2.1 rest
    (r2.1, r2.2.1, r1.2.2.1 ++ r2.2.2)

/-- Project the actual requests touching domain `d` out of a trace. -/
def reqOn (d : Option String) : Event → Option ReqRec
  | Event.request d' r => if d' = d then some r else none
  | _ => none

/-- All actual requests to domain `d`, in trace order. -/
def requestsOn (d : Option String) (evs : List Event) : List ReqRec :=
  evs.filterMap (reqOn d)

/-- Sanity of a limiter state against the clock: every recorded
last-request stamp lies in the past. -/
def StateInv (s : LimiterState) (clock : Nat) : Prop :=
  ∀ d t, s.domain_last_request d = some t → t ≤ clock

/-! ## Metadata builders (fetch_seed lines 253-259, 295-301, 326-332, 379-390) -/

/-- Sidecar contents written by the USAspending / SAM branches. -/
def apiMeta (sn endpoint ts : String) (status : Nat) (notes : String) : Meta :=
  ⟨sn, endpoint, ts, some status, none, none, none, none, none, notes, none⟩

/-- Metadata-only artifact written when robots.txt disallows a URL. -/
def robotsSkipMeta (sn url ts notes : String) : Meta :=
  ⟨sn, url, ts, none, none, none, none, none, some true, notes, none⟩

/-- Sidecar contents for a successful generic fetch, including the content
checksum and the verbatim manifest row. -/
def genericMeta (w : World) (sn url ts : String) (r : Response) (content : List Nat)
    (notes : String) (row : Row) : Meta :=
  ⟨sn, url, ts, some r.status_code, some r.content_type.toLower, some content.length,
    some r.etag, some (w.sha256_hex content), none, notes, some row⟩

/-! ## The structured API branches of main (fetch_seed lines 231-315) -/

/-- Outcome of one API branch: advanced clock, emitted events, and whether
the branch ended the row with `continue` (`true`) or fell through to the
rest of main (`false`, covering both the missing-parameter path and every
exception caught by the branch's `try`). -/
def USASPENDING_ENDPOINT : String := "https://api.usaspending.gov/api/v2/recipient/awards/"

/-- The USAspending helper of main (lines 231-274).  Note that it issues a
single raw `SESSION.get` with no robots check, no rate-limit wait and no
`record_domain_request`, and that any exception (transport error, storage
write failure) is caught and falls through to the generic path. -/
def usaBranch (w : World) (dry adls : Bool) (sn notes api_params outdir localBase ts : String)
    (clock : Nat) : Nat × List Event × Bool :=
  let params := parseParams api_params
  if hasKey params "recipient_id" || hasKey params "recipient_unique_id" then
    let endpoint := USASPENDING_ENDPOINT
    if dry then (clock, [], true)
    else
      let start := clock
      let clock1 := clock + w.dur endpoint
      match w.net endpoint with
      | NetAttempt.err _ =>
        (clock1, [Event.request (w.getDomain endpoint) ⟨start, clock1, false, 0⟩], false)
      | NetAttempt.ok r =>
        let evReq := [Event.request (w.getDomain endpoint) ⟨start, clock1, true, 0⟩]
        let content := r.content
        let meta := apiMeta sn endpoint ts r.status_code notes
        let fn := sn ++ "_usaspending_" ++ ts ++ ".json"
        if adls then
          if w.adlsOk fn then
            if w.adlsOk (fn ++ ".metadata.json") then
              (clock1, evReq ++ [Event.commit outdir fn (Payload.bytes content),
                Event.commit outdir (fn ++ ".metadata.json") (Payload.meta meta)], true)
            else (clock1, evReq ++ [Event.commit outdir fn (Payload.bytes content)], false)
          else (clock1, evReq, false)
        else
          let dir := localBase ++ "/" ++ outdir
          if w.localOk fn then
            if w.localOk (fn ++ ".metadata.json") then
              (clock1, evReq ++ [Event.commit dir fn (Payload.bytes content),
                Event.commit dir (fn ++ ".metadata.json") (Payload.meta meta)], true)
            else (clock1, evReq ++ [Event.commit dir fn (Payload.bytes content)], false)
          else (clock1, evReq, false)
  else (clock, [], false)

def SAM_ENDPOINT : String := "https://api.sam.gov/prod/opportunities/v2/search"

/-- The SAM.gov helper of main (lines 276-315); same single-request,
policy-free shape as the USAspending helper. -/
def samBranch (w : World) (dry adls : Bool) (sn notes api_params outdir localBase ts : String)
    (clock : Nat) : Nat × List Event × Bool :=
  let endpoint := SAM_ENDPOINT
  let _params := parseParams api_params
  if dry then (clock, [], true)
  else
    let start := clock
    let clock1 := clock + w.dur endpoint
    match w.net endpoint with
    | NetAttempt.err _ =>
      (clock1, [Event.request (w.getDomain endpoint) ⟨start, clock1, false, 0⟩], false)
    | NetAttempt.ok r =>
      let evReq := [Event.request (w.getDomain endpoint) ⟨start, clock1, true, 0⟩]
      let content := r.content
      let meta := apiMeta sn endpoint ts r.status_code notes
      let fn := sn ++ "_sam_" ++ ts ++ ".json"
      if adls then
        if w.adlsOk fn then
          if w.adlsOk (fn ++ ".metadata.json") then
            (clock1, evReq ++ [Event.commit outdir fn (Payload.bytes content),
              Event.commit outdir (fn ++ ".metadata.json") (Payload.meta meta)], true)
          else (clock1, evReq ++ [Event.commit outdir fn (Payload.bytes content)], false)
        else (clock1, evReq, false)
      else
        let dir := localBase ++ "/" ++ outdir
        if w.localOk fn then
          if w.localOk (fn ++ ".metadata.json") then
            (clock1, evReq ++ [Event.commit dir fn (Payload.bytes content),
              Event.commit dir (fn ++ ".metadata.json") (Payload.meta meta)], true)
          else (clock1, evReq ++ [Event.commit dir fn (Payload.bytes content)], false)
        else (clock1, evReq, false)

/-! ## Generic fetch path of main (fetch_seed lines 317-414) -/

/-- Commit of content plus metadata sidecar (lines 392-408).  ADLS failures
are caught with a local fallback; a local write failure raises uncaught
(`Except.error`), exactly as `save_local_bytes` / `save_local_text` do when
called outside any `try`. -/
def commitGeneric (w : World) (adls : Bool) (localBase outdir fn : String)
    (content : List Nat) (meta : Meta) : Except String (List Event) :=
  let localBoth : List Event → Except String (List Event) := fun extra =>
    let dir := localBase ++ "/" ++ outdir
    if w.localOk fn then
      if w.localOk (fn ++ ".metadata.json") then
        Except.ok (extra ++ [Event.commit dir fn (Payload.bytes content),
          Event.commit dir (fn ++ ".metadata.json") (Payload.meta meta)])
      else Except.error "local metadata write failed"
    else Except.error "local write failed"
  if adls then
    if w.adlsOk fn then
      if w.adlsOk (fn ++ ".metadata.json") then
        Except.ok [Event.commit outdir fn (Payload.bytes content),
          Event.commit outdir (fn ++ ".metadata.json") (Payload.meta meta)]
      else localBoth [Event.commit outdir fn (Payload.bytes content)]
    else localBoth []
  else localBoth []

/-- The 429 courtesy backoff (lines 410-414): `int(headers.get("Retry-After",
DEFAULT_CRAWL_DELAY))` then `time.sleep(backoff + jitter)`.  An unparseable
header raises `ValueError` from `int`; a value below -1 + jitter raises
`ValueError` from `sleep`.  Neither is caught anywhere in main. -/
def backoff429 (r : Response) (clock j : Nat) : Except String Nat :=
  if r.status_code = 429 then
    match r.retry_after with
    | none => Except.ok (clock + DEFAULT_CRAWL_DELAY + j)
    | some sv =>
      match parsePyInt sv with
      | none => Except.error "ValueError: invalid literal for int()"
      | some v =>
        if v < 0 then Except.error "ValueError: sleep length must be non-negative"
        else Except.ok (clock + v.toNat + j)
  else Except.ok clock

/-- The robots pre-check of main lines 322-324 applied to the freshly
retrieved parser (the retrieval is attempted even when no domain parsed). -/
def mainDisallows (w : World) (url : String) : Bool :=
  match (get_robots_parser_for_domain w (w.getDomain url)).1 with
  | some p => !(p.can_fetch url)
  | none => false

/-- Lines 326-341: the metadata-only artifact written when robots disallows
a URL; neither backend's write is guarded by a `try`, so a failure raises. -/
def robotsSkipCommit (w : World) (adls : Bool) (localBase outdir sn url ts notes : String) :
    Except String (List Event) :=
  let meta := robotsSkipMeta sn url ts notes
  let fn := sn ++ "_robots_skip_" ++ ts ++ ".json"
  if adls then
    if w.adlsOk fn then Except.ok [Event.commit outdir fn (Payload.meta meta)]
    else Except.error "ADLS robots-skip write failed"
  else
    let dir := localBase ++ "/" ++ outdir
    if w.localOk fn then Except.ok [Event.commit dir fn (Payload.meta meta)]
    else Except.error "local robots-skip write failed"

/-- Lines 369-375: extension normalization from the lowercased Content-Type,
falling back to the basename's own extension or `.bin`. -/
def extFor (content_type basename : String) : String :=
  let ct := strToLower content_type
  if strContains ct "pdf" then ".pdf"
  else if strContains ct "html" || strContains ct "text" then ".html"
  else
    let e := splitextExt basename
    if e = "" then ".bin" else e

/-- Line 377: `basename.rstrip(".")` plus timestamp plus extension. -/
def genericFilename (basename ts ext : String) : String :=
  String.mk (dropRightWhileList (· = '.') basename.data) ++ "_" ++ ts ++ ext

/-- The generic single-document path of main (lines 317-414): skip empty
URLs, pre-check robots (a fresh retrieval), write a metadata-only artifact
on disallow, honor dry-run, then polite_fetch, extension normalization,
checksum, commit and 429 backoff. -/
def genericPath (w : World) (dry adls : Bool) (localBase : String) (s : LimiterState)
    (clock : Nat) (row : Row) (sn outdir basename ts : String) (j : Nat) :
    Except String (LimiterState × Nat × List Event) :=
  if row.url = "" then Except.ok (s, clock, [])
  else
    let ev0 := (get_robots_parser_for_domain w (w.getDomain row.url)).2
    if mainDisallows w row.url then
      match robotsSkipCommit w adls localBase outdir sn row.url ts row.notes with
      | Except.ok ev1 => Except.ok (s, clock, ev0 ++ ev1)
      | Except.error e => Except.error e
    else if dry then Except.ok (s, clock, ev0)
    else
      let pf := polite_fetch w s clock row.url j
      let s1 := pf.1
      let clock1 := pf.2.1
      let ev1 := pf.2.2.1
      match pf.2.2.2 with
      | PFResult.skipped => Except.ok (s1, clock1, ev0 ++ ev1)
      | PFResult.failed _ => Except.ok (s1, clock1, ev0 ++ ev1)
      | PFResult.success r =>
        let content := r.content
        let fn := genericFilename basename ts (extFor r.content_type basename)
        let meta := genericMeta w sn row.url ts r content row.notes row
        match commitGeneric w adls localBase outdir fn content meta with
        | Except.error e => Except.error e
        | Except.ok ev2 =>
          match backoff429 r clock1 j with
          | Except.error e => Except.error e
          | Except.ok clock2 => Except.ok (s1, clock2, ev0 ++ ev1 ++ ev2)

/-! ## One manifest row and the whole run (fetch_seed lines 214-416) -/

/-- Prepend the events of the earlier parts of a row to the generic path's
outcome, passing an escaped exception through. -/
def mapRowOut (ev12 : List Event) (x : Except String (LimiterState × Nat × List Event)) :
    Except String (LimiterState × Nat × List Event) :=
  match x with
  | Except.ok out => Except.ok (out.1, out.2.1, ev12 ++ out.2.2)
  | Except.error e => Except.error e

/-- Processing of one manifest row by main's for-loop body.  `Except.error`
means an exception escaped the loop body and terminated the run. -/
def processRow (w : World) (dry adls : Bool) (samKey : Option String)
    (localBase date : String) (s : LimiterState) (clock : Nat) (row : Row)
    (ts : String) (j : Nat) : Except String (LimiterState × Nat × List Event) :=
  let sn := sourceNameOf row
  let url := row.url
  let api_params := row.api_endpoint_or_params
  let outdir := build_output_paths sn date
  let basename := basenameOf (w.getPath url)
  let usa :=
    if strContains (strToLower url) "usaspending" || strContains (strToLower api_params) "usaspending" then
      usaBranch w dry adls sn row.notes api_params outdir localBase ts clock
    else (clock, [], false)
  let clock1 := usa.1
  let ev1 := usa.2.1
  if usa.2.2 then Except.ok (s, clock1, ev1)
  else
    let sam :=
      if strContains (strToLower url) "sam.gov" ||
          (strContains (strToLower api_params) "sam" && samKey.isSome) then
        match samKey with
        | some _ => samBranch w dry adls sn row.notes api_params outdir localBase ts clock1
        | none => (clock1, [], false)
      else (clock1, [], false)
    let clock2 := sam.1
    let ev2 := sam.2.1
    if sam.2.2 then Except.ok (s, clock2, ev1 ++ ev2)
    else mapRowOut (ev1 ++ ev2) (genericPath w dry adls localBase s clock2 row sn outdir basename ts j)

/-- main's loop over the manifest rows; the first uncaught exception
terminates the whole run. -/
def runRows (w : World) (dry adls : Bool) (samKey : Option String) (localBase date : String) :
    LimiterState → Nat → List Row → Except String (LimiterState × Nat × List Event)
  | s, clock, [] => Except.ok (s, clock, [])
  | s, clock, row :: rest =>
    match processRow w dry adls samKey localBase date s clock row (w.fmtTs clock) (w.jit clock) with
    | Except.error e => Except.error e
    | Except.ok out =>
      match runRows w dry adls samKey localBase date out.1 out.2.1 rest with
      | Except.error e => Except.error e
      | Except.ok out2 => Except.ok (out2.1, out2.2.1, out.2.2 ++ out2.2.2)

/-! ## Trace accounting helpers -/

/-- Whether an event is a network operation (robots retrieval or request). -/
def isNetworkOp : Event → Bool
  | Event.robotsFetch _ => true
  | Event.request _ _ => true
  | Event.commit _ _ _ => false

/-- Number of network operations on a trace. -/
def networkOps (evs : List Event) : Nat :=
  (evs.filter isNetworkOp).length

/-- Number of robots.txt retrieval attempts on a trace. -/
def robotsFetchCount (evs : List Event) : Nat :=
  (evs.filter (fun e => match e with | Event.robotsFetch _ => true | _ => false)).length

/-- Number of actual HTTP requests on a trace. -/
def requestCount (evs : List Event) : Nat :=
  (evs.filter (fun e => match e with | Event.request _ _ => true | _ => false)).length

/-- Number of storage writes on a trace. -/
def commitCount (evs : List Event) : Nat :=
  (evs.filter (fun e => match e with | Event.commit _ _ _ => true | _ => false)).length

/-- The committed (filename, payload) pairs of a trace, in order. -/
def commitsOf (evs : List Event) : List (String × Payload) :=
  evs.filterMap (fun e => match e with
    | Event.commit _ fn p => some (fn, p)
    | _ => none)

/-- Whether an Except value carries a result rather than an escaped
exception. -/
def exceptOk {ε α : Type} : Except ε α → Bool
  | Except.ok _ => true
  | Except.error _ => false

end SeedIngest

namespace UsaFetch

/-! ## src/ingest/usaspending_fetch.py -/

/-- One page response of the USAspending API as the script consumes it:
HTTP status and the length of `payload.get("results", [])`. -/
structure ApiResp where
  status : Nat
  results : Nat
deriving Repr, DecidableEq

/-- Reified effects of the pagination loop: the GET of one page (with the
query parameters and the observed status), and the single
`write_json_to_adls` call committing that page's payload. -/
inductive UsaEvent where
  | pageGet : String → String → Nat → Nat → UsaEvent
  | commitPage : String → String → UsaEvent
deriving Repr, DecidableEq

/-- Lines 35-42: strip a trailing `-C` / `-P` into `recipient_level`,
defaulting to `C`. -/
def parseRecipientLevel (recipient_id : String) : String × String :=
  if SeedIngest.strEndsWith recipient_id "-C" || SeedIngest.strEndsWith recipient_id "-P" then
    (recipient_id.dropRight 2, recipient_id.takeRight 1)
  else (recipient_id, "C")

/-- Number of committed page artifacts on a trace. -/
def pageCommits (evs : List UsaEvent) : Nat :=
  (evs.filter (fun e => match e with | UsaEvent.commitPage _ _ => true | _ => false)).length

/-- Number of page GETs that returned HTTP 200. -/
def okPageGets (evs : List UsaEvent) : Nat :=
  (evs.filter (fun e => match e with
    | UsaEvent.pageGet _ _ _ st => st = 200
    | _ => false)).length

/-- Committed filenames, in order. -/
def pageFilenames (evs : List UsaEvent) : List String :=
  evs.filterMap (fun e => match e with
    | UsaEvent.commitPage _ fn => some fn
    | _ => none)

/-- The `while True` loop of fetch_usaspending_for_recipient (lines 52-70):
GET the current page; on non-200 stop; otherwise commit the page payload,
then stop if the result list is empty, else advance the page and continue.
`fuel` bounds the unrolling of the unbounded Python loop; the Bool is true
when the loop reached one of its own stop conditions within the fuel. -/
def usaLoop (pages : Nat → ApiResp) (recipient_id rid rlevel : String)
    (fmtTs : Nat → String) : Nat → Nat → Nat → List UsaEvent × Bool
  | 0, _, _ => ([], false)
  | fuel + 1, page, clock =>
    let r := pages page
    let evReq := [UsaEvent.pageGet rid rlevel page r.status]
    if r.status ≠ 200 then (evReq, true)
    else
      let ts := fmtTs clock
      let fn := "usaspending_" ++ recipient_id ++ "_page" ++ toString page ++ "_" ++ ts ++ ".json"
      let dir := "anduril/USAspending/" ++ recipient_id
      let evC := [UsaEvent.commitPage dir fn]
      if r.results = 0 then (evReq ++ evC, true)
      else
        let res := usaLoop pages recipient_id rid rlevel fmtTs fuel (page + 1) (clock + 1)
        (evReq ++ evC ++ res.1, res.2)

/-- fetch_usaspending_for_recipient (lines 32-71): parse the recipient
level, then run the pagination loop from page 1. -/
def fetch_usaspending_for_recipient (pages : Nat → ApiResp) (fmtTs : Nat → String)
    (recipient_id : String) (fuel : Nat) : List UsaEvent × Bool :=
  let pr := parseRecipientLevel recipient_id
  usaLoop pages recipient_id pr.1 pr.2 fmtTs fuel 1 0

end UsaFetch

namespace NewsFetch

/-! ## src/ingest/news_fetch.py -/

/-- One parsed feed entry; `none` models a missing key (feedparser's
`entry.get` returns a default, while attribute access raises). -/
structure RssEntry where
  title : Option String
  link : Option String
  published : Option String
  summary : Option String
deriving Repr, DecidableEq

/-- The JSON document written for one feed item (lines 42-47). -/
structure NewsItem where
  title : Option String
  link : Option String
  published : Option String
  summary : Option String
deriving Repr, DecidableEq

/-- Outcome of `requests.get(entry.link, ...)`: a raised exception, or a
status code plus the decoded text body. -/
inductive NewsResp where
  | err : String → NewsResp
  | ok : Nat → String → NewsResp
deriving Repr, DecidableEq

/-- Reified effects of the RSS loop: the item-JSON write, the article GET,
and the optional article-HTML write. -/
inductive NewsEvent where
  | commitJson : String → String → NewsItem → NewsEvent
  | articleGet : String → NewsEvent
  | commitHtml : String → String → String → NewsEvent
deriving Repr, DecidableEq

/-- Line 40: `entry.get("title", "untitled").replace("/", "_").replace(" ", "_")[:140]`. -/
def safeTitle (t : Option String) : String :=
  (SeedIngest.replaceChar ' ' '_' (SeedIngest.replaceChar '/' '_'
    (match t with | some x => x | none => "untitled"))).take 140

/-- The loop body for one feed entry (lines 38-58): the item JSON is
always written first (line 49, before the `try`).  Then
`requests.get(entry.link, ...)` — when the entry has NO link, the
attribute access raises AttributeError inside the `try`, but the except
handler itself re-evaluates `entry.link` at line 57
(`logging.warning("Failed to fetch article %s: %s", entry.link, e)`),
re-raising the AttributeError UNCAUGHT: the whole run terminates (Bool
result `false`).  With a link present, a transport error is caught and
logged (the handler's `entry.link` then succeeds), and the HTML snapshot
is committed only when the GET returned status 200 with more than 200
characters of text; in all linked cases the loop continues (`true`). -/
def newsEntryEvents (netN : String → NewsResp) (pre ts : String) (entry : RssEntry) :
    List NewsEvent × Bool :=
  let safe := safeTitle entry.title
  let fn := safe ++ "_" ++ ts ++ ".json"
  let item : NewsItem := ⟨entry.title, entry.link, entry.published, entry.summary⟩
  let ev1 := [NewsEvent.commitJson (pre ++ "/rss") fn item]
  match entry.link with
  | none => (ev1, false)
  | some l =>
    match netN l with
    | NewsResp.err _ => (ev1 ++ [NewsEvent.articleGet l], true)
    | NewsResp.ok status text =>
      if status = 200 ∧ 200 < text.length then
        (ev1 ++ [NewsEvent.articleGet l,
          NewsEvent.commitHtml (pre ++ "/html") (safe ++ "_" ++ ts ++ ".html") text], true)
      else (ev1 ++ [NewsEvent.articleGet l], true)

/-- The iteration over `feed.entries[:max_items]`, threading the clock that
feeds the per-entry timestamp; an uncaught exception in an entry's body
abandons the remaining entries (the Bool records normal completion). -/
def newsGo (netN : String → NewsResp) (fmtTs : Nat → String) (pre : String) :
    Nat → List RssEntry → List NewsEvent × Bool
  | _, [] => ([], true)
  | clock, e :: rest =>
    let r := newsEntryEvents netN pre (fmtTs clock) e
    if r.2 then
      let r2 := newsGo netN fmtTs pre (clock + 1) rest
      (r.1 ++ r2.1, r2.2)
    else (r.1, false)

/-- The argparse default for `--max` (line 64). -/
def DEFAULT_MAX_ITEMS : Nat := 10

/-- fetch_rss_and_store (lines 32-58): process at most `max_items` entries
of the feed, in feed order; the Bool is false when a link-less entry
killed the run early. -/
def fetch_rss_and_store (netN : String → NewsResp) (fmtTs : Nat → String)
    (source_name : String) (entries : List RssEntry) (max_items : Nat) :
    List NewsEvent × Bool :=
  let pre := "anduril/news/" ++ source_name
  newsGo netN fmtTs pre 0 (entries.take max_items)

/-- The slice of entries the loop actually reaches: everything up to and
INCLUDING the first link-less entry (whose item JSON is committed before
the uncaught AttributeError ends the run), or the whole list when every
entry has a link. -/
def processedEntries : List RssEntry → List RssEntry
  | [] => []
  | e :: rest =>
    match e.link with
    | none => [e]
    | some _ => e :: processedEntries rest

/-- Number of item-JSON commits on a news trace. -/
def jsonCommits (evs : List NewsEvent) : Nat :=
  (evs.filter (fun e => match e with | NewsEvent.commitJson _ _ _ => true | _ => false)).length

/-- Number of article-HTML commits on a news trace. -/
def htmlCommits (evs : List NewsEvent) : Nat :=
  (evs.filter (fun e => match e with | NewsEvent.commitHtml _ _ _ => true | _ => false)).length

/-- The committed items, in order. -/
def jsonItems (evs : List NewsEvent) : List NewsItem :=
  evs.filterMap (fun e => match e with
    | NewsEvent.commitJson _ _ it => some it
    | _ => none)

/-- Whether an entry earns an HTML artifact: its link fetch succeeds with
status 200 and a body longer than 200 characters. -/
def htmlCond (netN : String → NewsResp) (e : RssEntry) : Bool :=
  match e.link with
  | none => false
  | some l =>
    match netN l with
    | NewsResp.err _ => false
    | NewsResp.ok status text => status = 200 && 200 < text.length

end NewsFetch

namespace UsaFetch

/-! ## Lemmas and claims about the pagination loop -/

theorem pageCommits_append (a b : List UsaEvent) :
    pageCommits (a ++ b) = pageCommits a + pageCommits b := by
  simp [pageCommits, List.filter_append]

theorem okPageGets_append (a b : List UsaEvent) :
    okPageGets (a ++ b) = okPageGets a + okPageGets b := by
  simp [okPageGets, List.filter_append]

/-- Core induction for the terminating shape of the loop: N non-empty
200-pages starting at `page`, then a 200-page with an empty result list. -/
theorem usaLoop_counts (pages : Nat → ApiResp) (recipient_id rid rlevel : String)
    (fmtTs : Nat → String) :
    ∀ (N page clock fuel : Nat),
      (∀ i, page ≤ i → i < page + N → (pages i).status = 200 ∧ (pages i).results ≠ 0) →
      (pages (page + N)).status = 200 →
      (pages (page + N)).results = 0 →
      N + 1 ≤ fuel →
      pageCommits (usaLoop pages recipient_id rid rlevel fmtTs fuel page clock).1 = N + 1 ∧
      (usaLoop pages recipient_id rid rlevel fmtTs fuel page clock).2 = true := by
  intro N
  induction N with
  | zero =>
    intro page clock fuel hmid h200 hres hf
    obtain ⟨f, rfl⟩ : ∃ f, fuel = f + 1 := ⟨fuel - 1, by omega⟩
    rw [Nat.add_zero] at h200 hres
    simp only [usaLoop]
    rw [if_neg (by simp [h200]), if_pos hres]
    exact ⟨by simp [pageCommits], rfl⟩
  | succ N ih =>
    intro page clock fuel hmid h200 hres hf
    obtain ⟨f, rfl⟩ : ∃ f, fuel = f + 1 := ⟨fuel - 1, by omega⟩
    have hp := hmid page (le_refl _) (by omega)
    have hshift : page + 1 + N = page + (N + 1) := by omega
    have ih' := ih (page + 1) (clock + 1) f
      (fun i h1 h2 => hmid i (by omega) (by omega))
      (by rw [hshift]; exact h200) (by rw [hshift]; exact hres) (by omega)
    simp only [usaLoop]
    rw [if_neg (by simp [hp.1]), if_neg hp.2]
    refine ⟨?_, ih'.2⟩
    simp only [pageCommits_append, ih'.1]
    simp [pageCommits]
    omega

/-- One storage write per successfully retrieved page, and no other write:
the loop never writes a second (sidecar) artifact for a page. -/
theorem usaLoop_one_write_per_page (pages : Nat → ApiResp) (recipient_id rid rlevel : String)
    (fmtTs : Nat → String) :
    ∀ (fuel page clock : Nat),
      pageCommits (usaLoop pages recipient_id rid rlevel fmtTs fuel page clock).1 =
        okPageGets (usaLoop pages recipient_id rid rlevel fmtTs fuel page clock).1 := by
  intro fuel
  induction fuel with
  | zero => intro page clock; rfl
  | succ f ih =>
    intro page clock
    simp only [usaLoop]
    by_cases h200 : (pages page).status ≠ 200
    · rw [if_pos h200]
      simp [pageCommits, okPageGets, List.filter, h200]
    · rw [if_neg h200]
      push_neg at h200
      by_cases hres : (pages page).results = 0
      · rw [if_pos hres]
        simp [pageCommits, okPageGets, List.filter, h200]
      · rw [if_neg hres]
        simp only [pageCommits_append, okPageGets_append, ih]
        simp [pageCommits, okPageGets, List.filter, h200]

/-- Claim C3 (amended): against an API returning N non-empty pages and then
an empty page (all HTTP 200), the pagination loop commits exactly N + 1
page artifacts — the terminal empty page is committed too, before the
emptiness check — and then stops; on a non-200 status it stops without
committing that page. -/
theorem claim_C3_pagination (pages : Nat → ApiResp) (fmtTs : Nat → String)
    (recipient_id : String) (N fuel : Nat)
    (hmid : ∀ i, 1 ≤ i → i < 1 + N → (pages i).status = 200 ∧ (pages i).results ≠ 0)
    (h200 : (pages (1 + N)).status = 200)
    (hres : (pages (1 + N)).results = 0)
    (hf : N + 1 ≤ fuel) :
    pageCommits (fetch_usaspending_for_recipient pages fmtTs recipient_id fuel).1 = N + 1 ∧
    (fetch_usaspending_for_recipient pages fmtTs recipient_id fuel).2 = true ∧
    (∀ (pages2 : Nat → ApiResp) (fuel2 : Nat), (pages2 1).status ≠ 200 → 1 ≤ fuel2 →
      pageCommits (fetch_usaspending_for_recipient pages2 fmtTs recipient_id fuel2).1 = 0 ∧
      (fetch_usaspending_for_recipient pages2 fmtTs recipient_id fuel2).2 = true) := by
  have h := usaLoop_counts pages recipient_id (parseRecipientLevel recipient_id).1
    (parseRecipientLevel recipient_id).2 fmtTs N 1 0 fuel hmid h200 hres hf
  refine ⟨h.1, h.2, ?_⟩
  intro pages2 fuel2 hbad hf2
  obtain ⟨f, rfl⟩ : ∃ f, fuel2 = f + 1 := ⟨fuel2 - 1, by omega⟩
  unfold fetch_usaspending_for_recipient
  simp only [usaLoop]
  rw [if_pos hbad]
  exact ⟨by simp [pageCommits], rfl⟩

/-- Concrete instantiation of the amended C3 theorem, discharging its
hypotheses at N = 1. -/
theorem claim_C3_pagination_witness :
    pageCommits (fetch_usaspending_for_recipient
      (fun i => if i = 1 then ⟨200, 5⟩ else ⟨200, 0⟩) (fun _ => "T") "RID" 5).1 = 2 ∧
    (fetch_usaspending_for_recipient
      (fun i => if i = 1 then ⟨200, 5⟩ else ⟨200, 0⟩) (fun _ => "T") "RID" 5).2 = true := by
  have h := claim_C3_pagination (fun i => if i = 1 then ⟨200, 5⟩ else ⟨200, 0⟩)
    (fun _ => "T") "RID" 1 5 (by decide) (by decide) (by decide) (by omega)
  exact ⟨h.1, h.2.1⟩

/-- Claim C3 as stated is false: with N = 1 non-empty page followed by an
empty page the loop commits 2 artifacts, not exactly N = 1 — the empty
terminal page is also written. -/
theorem claim_C3_counterexample :
    pageCommits (fetch_usaspending_for_recipient
      (fun i => if i = 1 then ⟨200, 7⟩ else ⟨200, 0⟩) (fun _ => "TS") "REC" 4).1 = 2 ∧
    ¬ pageCommits (fetch_usaspending_for_recipient
      (fun i => if i = 1 then ⟨200, 7⟩ else ⟨200, 0⟩) (fun _ => "TS") "REC" 4).1 = 1 := by
  constructor
  · rfl
  · decide

end UsaFetch

namespace NewsFetch

/-! ## Lemmas and claims about the RSS loop -/

theorem jsonCommits_append (a b : List NewsEvent) :
    jsonCommits (a ++ b) = jsonCommits a + jsonCommits b := by
  simp [jsonCommits, List.filter_append]

theorem htmlCommits_append (a b : List NewsEvent) :
    htmlCommits (a ++ b) = htmlCommits a + htmlCommits b := by
  simp [htmlCommits, List.filter_append]

theorem jsonItems_append (a b : List NewsEvent) :
    jsonItems (a ++ b) = jsonItems a ++ jsonItems b := by
  simp [jsonItems, List.filterMap_append]

/-- Shape of the events one feed entry produces: exactly one item-JSON
commit carrying the entry's fields, one HTML commit exactly when the
article fetch succeeded with status 200 and more than 200 characters, and
the loop survives the entry exactly when the entry has a link (a link-less
entry re-raises AttributeError from the except handler's own `entry.link`
at line 57, after its item JSON was already written). -/
theorem newsEntryEvents_spec (netN : String → NewsResp) (pre ts : String) (entry : RssEntry) :
    jsonCommits (newsEntryEvents netN pre ts entry).1 = 1 ∧
    jsonItems (newsEntryEvents netN pre ts entry).1 =
      [⟨entry.title, entry.link, entry.published, entry.summary⟩] ∧
    htmlCommits (newsEntryEvents netN pre ts entry).1 =
      (if htmlCond netN entry then 1 else 0) ∧
    (newsEntryEvents netN pre ts entry).2 = entry.link.isSome := by
  cases hl : entry.link with
  | none =>
    simp [newsEntryEvents, htmlCond, hl, jsonCommits, jsonItems, htmlCommits,
      List.filter, List.filterMap]
  | some l =>
    cases hn : netN l with
    | err e =>
      simp [newsEntryEvents, htmlCond, hl, hn, jsonCommits, jsonItems, htmlCommits,
        List.filter, List.filterMap]
    | ok status text =>
      by_cases h : status = 200 ∧ 200 < text.length
      · simp [newsEntryEvents, htmlCond, hl, hn, h, h.1, h.2, jsonCommits, jsonItems,
          htmlCommits, List.filter, List.filterMap]
      · have hb : (decide (status = 200) && decide (200 < text.length)) = false := by
          cases not_and_or.mp h with
          | inl h1 => simp [h1]
          | inr h1 => simp [h1]
        simp [newsEntryEvents, htmlCond, hl, hn, h, hb, jsonCommits, jsonItems,
          htmlCommits, List.filter, List.filterMap]

/-- The reached slice is a prefix of the feed slice (feed order). -/
theorem processedEntries_initial (l : List RssEntry) : processedEntries l <+: l := by
  induction l with
  | nil => exact List.prefix_refl _
  | cons e rest ih =>
    cases hl : e.link with
    | none =>
      simp only [processedEntries, hl]
      exact List.cons_prefix_cons.mpr ⟨rfl, List.nil_prefix⟩
    | some l' =>
      simp only [processedEntries, hl]
      exact List.cons_prefix_cons.mpr ⟨rfl, ih⟩

/-- Induction over the feed slice, crash-aware: the counts range over the
reached entries only, and the Bool result records whether every entry of
the slice had a link (otherwise the run died at the first link-less one). -/
theorem newsGo_spec (netN : String → NewsResp) (fmtTs : Nat → String) (pre : String) :
    ∀ (l : List RssEntry) (clock : Nat),
      jsonCommits (newsGo netN fmtTs pre clock l).1 = (processedEntries l).length ∧
      jsonItems (newsGo netN fmtTs pre clock l).1 =
        (processedEntries l).map (fun e => ⟨e.title, e.link, e.published, e.summary⟩) ∧
      htmlCommits (newsGo netN fmtTs pre clock l).1 =
        ((processedEntries l).filter (htmlCond netN)).length ∧
      (newsGo netN fmtTs pre clock l).2 = l.all (fun e => e.link.isSome) := by
  intro l
  induction l with
  | nil => intro clock; exact ⟨rfl, rfl, rfl, rfl⟩
  | cons e rest ih =>
    intro clock
    have he := newsEntryEvents_spec netN pre (fmtTs clock) e
    have ihc := ih (clock + 1)
    cases hl : e.link with
    | none =>
      have hr2 : (newsEntryEvents netN pre (fmtTs clock) e).2 = false := by
        rw [he.2.2.2, hl]; rfl
      have hhc : htmlCond netN e = false := by simp [htmlCond, hl]
      simp only [newsGo, hr2, Bool.false_eq_true, if_false]
      refine ⟨?_, ?_, ?_, ?_⟩
      · rw [he.1]; simp [processedEntries, hl]
      · rw [he.2.1]; simp [processedEntries, hl]
      · rw [he.2.2.1, hhc]; simp [processedEntries, hl, List.filter, hhc]
      · simp [List.all_cons, hl]
    | some l' =>
      have hr2 : (newsEntryEvents netN pre (fmtTs clock) e).2 = true := by
        rw [he.2.2.2, hl]; rfl
      have hp : processedEntries (e :: rest) = e :: processedEntries rest := by
        simp [processedEntries, hl]
      simp only [newsGo, hr2, if_true]
      rw [hp]
      refine ⟨?_, ?_, ?_, ?_⟩
      · rw [jsonCommits_append, he.1, ihc.1]; simp; omega
      · rw [jsonItems_append, he.2.1, ihc.2.1]; simp
      · rw [htmlCommits_append, he.2.2.1, ihc.2.2.1, List.filter_cons]
        by_cases hc : htmlCond netN e <;> simp [hc] <;> omega
      · rw [ihc.2.2.2]; simp [List.all_cons, hl]

/-- Claim C10: the RSS ingestion processes at most `max_items` entries
(CLI default 10) in feed order — the entries it reaches form a prefix of
`feed.entries[:max_items]`, cut short at the first link-less entry, whose
AttributeError escapes the except handler (its line 57 re-reads
`entry.link`) and terminates the run; it commits exactly one item-JSON
artifact per processed entry (carrying the entry's fields, in order), and
commits an HTML artifact for an entry only when fetching its link
returned HTTP 200 with a body longer than 200 characters. -/
theorem claim_C10_rss (netN : String → NewsResp) (fmtTs : Nat → String)
    (source_name : String) (entries : List RssEntry) (max_items : Nat) :
    processedEntries (entries.take max_items) <+: entries.take max_items ∧
    (processedEntries (entries.take max_items)).length ≤ max_items ∧
    jsonCommits (fetch_rss_and_store netN fmtTs source_name entries max_items).1 =
      (processedEntries (entries.take max_items)).length ∧
    jsonItems (fetch_rss_and_store netN fmtTs source_name entries max_items).1 =
      (processedEntries (entries.take max_items)).map
        (fun e => ⟨e.title, e.link, e.published, e.summary⟩) ∧
    htmlCommits (fetch_rss_and_store netN fmtTs source_name entries max_items).1 =
      ((processedEntries (entries.take max_items)).filter (htmlCond netN)).length ∧
    (fetch_rss_and_store netN fmtTs source_name entries max_items).2 =
      (entries.take max_items).all (fun e => e.link.isSome) ∧
    DEFAULT_MAX_ITEMS = 10 := by
  have h := newsGo_spec netN fmtTs ("anduril/news/" ++ source_name) (entries.take max_items) 0
  refine ⟨processedEntries_initial _, ?_, h.1, h.2.1, h.2.2.1, h.2.2.2, rfl⟩
  calc (processedEntries (entries.take max_items)).length
      ≤ (entries.take max_items).length :=
        (processedEntries_initial _).length_le
    _ ≤ max_items := List.length_take_le _ _

end NewsFetch



namespace SeedIngest

/-! ## Rate limiter lemmas -/

theorem wait_for_domain_none (s : LimiterState) (d : Option String) (now j : Nat)
    (h : s.domain_last_request d = none) : wait_for_domain s d now j = now := by
  unfold wait_for_domain
  rw [h]

theorem le_wait_for_domain (s : LimiterState) (d : Option String) (now j : Nat) :
    now ≤ wait_for_domain s d now j := by
  unfold wait_for_domain
  cases h : s.domain_last_request d with
  | none => exact le_refl _
  | some last =>
    dsimp only
    split
    · omega
    · exact le_refl _

theorem wait_for_domain_ge (s : LimiterState) (d : Option String) (now j last : Nat)
    (h : s.domain_last_request d = some last) (hle : last ≤ now) :
    last + effectiveDelay s d ≤ wait_for_domain s d now j := by
  unfold wait_for_domain
  rw [h]
  dsimp only
  split <;> omega

theorem record_last_self (s : LimiterState) (d : Option String) (rp : Option RobotsParser)
    (now : Nat) : (record_domain_request s d rp now).domain_last_request d = some now := by
  unfold record_domain_request updateKey
  cases rp with
  | none => simp
  | some p =>
    cases p.crawl_delay_ua with
    | some cd => simp
    | none => cases p.crawl_delay_star with
      | some cd => simp
      | none => simp

theorem record_last_other (s : LimiterState) (d : Option String) (rp : Option RobotsParser)
    (now : Nat) (d' : Option String) (h : d' ≠ d) :
    (record_domain_request s d rp now).domain_last_request d' = s.domain_last_request d' := by
  unfold record_domain_request updateKey
  cases rp with
  | none => simp [h]
  | some p =>
    cases hc : p.crawl_delay_ua with
    | some cd => simp [hc, h]
    | none =>
      cases hcs : p.crawl_delay_star with
      | some cd => simp [hc, hcs, h]
      | none => simp [hc, hcs, h]

theorem record_crawl_other (s : LimiterState) (d : Option String) (rp : Option RobotsParser)
    (now : Nat) (d' : Option String) (h : d' ≠ d) :
    (record_domain_request s d rp now).domain_crawl_delay d' = s.domain_crawl_delay d' := by
  unfold record_domain_request updateKey
  cases rp with
  | none => simp
  | some p =>
    cases hc : p.crawl_delay_ua with
    | some cd => simp [hc, h]
    | none =>
      cases hcs : p.crawl_delay_star with
      | some cd => simp [hc, hcs, h]
      | none => simp [hc, hcs]

theorem requestsOn_append (d : Option String) (a b : List Event) :
    requestsOn d (a ++ b) = requestsOn d a ++ requestsOn d b := by
  simp [requestsOn, List.filterMap_append]

theorem requestsOn_robotsEv (d : Option String) (w : World) (url : String) :
    requestsOn d (robotsEv w url) = [] := by
  unfold robotsEv get_robots_parser_for_domain
  cases w.getDomain url <;> simp [requestsOn, List.filterMap, reqOn]


theorem requestsOn_request_self (d : Option String) (rec : ReqRec) :
    requestsOn d [Event.request d rec] = [rec] := by
  simp [requestsOn, List.filterMap, reqOn]

theorem requestsOn_request_other (d d0 : Option String) (rec : ReqRec) (h : d ≠ d0) :
    requestsOn d [Event.request d0 rec] = [] := by
  simp only [requestsOn, List.filterMap, reqOn]
  rw [if_neg (fun hcon => h hcon.symm)]

/-- Shape of polite_fetch on the robots-skip path. -/
theorem polite_fetch_disallowed (w : World) (s : LimiterState) (clock : Nat) (url : String)
    (j : Nat) (h : robotsDisallows w url = true) :
    polite_fetch w s clock url j = (s, clock, robotsEv w url, PFResult.skipped) := by
  simp only [polite_fetch, h, if_true]

/-- Shape of polite_fetch on the successful-request path. -/
theorem polite_fetch_ok (w : World) (s : LimiterState) (clock : Nat) (url : String)
    (j : Nat) (r : Response) (h : robotsDisallows w url = false)
    (hn : w.net url = NetAttempt.ok r) :
    polite_fetch w s clock url j =
      (record_domain_request s (w.getDomain url) (effRp w url)
          (wait_for_domain s (w.getDomain url) clock j + w.dur url),
       wait_for_domain s (w.getDomain url) clock j + w.dur url,
       robotsEv w url ++ [Event.request (w.getDomain url)
         ⟨wait_for_domain s (w.getDomain url) clock j,
          wait_for_domain s (w.getDomain url) clock j + w.dur url, true,
          effectiveDelay s (w.getDomain url)⟩],
       PFResult.success r) := by
  simp only [polite_fetch, h, Bool.false_eq_true, if_false, hn]

/-- Shape of polite_fetch on the failed-request path: the limiter state is
left untouched. -/
theorem polite_fetch_err (w : World) (s : LimiterState) (clock : Nat) (url : String)
    (j : Nat) (e : String) (h : robotsDisallows w url = false)
    (hn : w.net url = NetAttempt.err e) :
    polite_fetch w s clock url j =
      (s, wait_for_domain s (w.getDomain url) clock j + w.dur url,
       robotsEv w url ++ [Event.request (w.getDomain url)
         ⟨wait_for_domain s (w.getDomain url) clock j,
          wait_for_domain s (w.getDomain url) clock j + w.dur url, false,
          effectiveDelay s (w.getDomain url)⟩],
       PFResult.failed e) := by
  simp only [polite_fetch, h, Bool.false_eq_true, if_false, hn]


/-- Per-step specification of polite_fetch with respect to one domain `d`:
the clock is monotone, the ledger invariant is preserved, and the step
contributes either no request on `d` (leaving its ledger entry untouched)
or exactly one request on `d` that waited out the recorded stamp and
stamps the ledger exactly when it succeeded. -/
theorem polite_fetch_step (w : World) (s : LimiterState) (clock : Nat) (url : String)
    (j : Nat) (d : Option String) (hInv : StateInv s clock) :
    StateInv (polite_fetch w s clock url j).1 (polite_fetch w s clock url j).2.1 ∧
    clock ≤ (polite_fetch w s clock url j).2.1 ∧
    ((requestsOn d (polite_fetch w s clock url j).2.2.1 = [] ∧
        (polite_fetch w s clock url j).1.domain_last_request d = s.domain_last_request d) ∨
     (∃ rec, requestsOn d (polite_fetch w s clock url j).2.2.1 = [rec] ∧
        (∀ t0, s.domain_last_request d = some t0 → t0 + rec.delay ≤ rec.start) ∧
        rec.start ≤ rec.finish ∧ rec.finish = (polite_fetch w s clock url j).2.1 ∧
        (rec.ok = true →
          (polite_fetch w s clock url j).1.domain_last_request d = some rec.finish) ∧
        (rec.ok = false →
          (polite_fetch w s clock url j).1.domain_last_request d = s.domain_last_request d))) := by
  by_cases hrb : robotsDisallows w url
  · rw [polite_fetch_disallowed w s clock url j hrb]
    exact ⟨hInv, le_refl _, Or.inl ⟨requestsOn_robotsEv d w url, rfl⟩⟩
  · rw [Bool.not_eq_true] at hrb
    have hwait := le_wait_for_domain s (w.getDomain url) clock j
    cases hn : w.net url with
    | ok r =>
      rw [polite_fetch_ok w s clock url j r hrb hn]
      dsimp only
      refine ⟨?_, by omega, ?_⟩
      · intro d' t h'
        by_cases hdd : d' = w.getDomain url
        · rw [hdd, record_last_self] at h'
          have : t = wait_for_domain s (w.getDomain url) clock j + w.dur url :=
            (Option.some.injEq _ _).mp h'.symm
          omega
        · rw [record_last_other _ _ _ _ _ hdd] at h'
          have := hInv d' t h'
          omega
      · by_cases hdd : d = w.getDomain url
        · subst hdd
          refine Or.inr ⟨⟨wait_for_domain s (w.getDomain url) clock j,
            wait_for_domain s (w.getDomain url) clock j + w.dur url, true,
            effectiveDelay s (w.getDomain url)⟩,
            ?_, ?_, by dsimp only; omega, rfl, ?_, ?_⟩
          · rw [requestsOn_append, requestsOn_robotsEv, requestsOn_request_self]
            rfl
          · intro t0 h0
            exact wait_for_domain_ge s (w.getDomain url) clock j t0 h0
              (hInv (w.getDomain url) t0 h0)
          · intro _
            exact record_last_self s (w.getDomain url) (effRp w url) _
          · intro hcon
            exact absurd hcon (by simp)
        · refine Or.inl ⟨?_, record_last_other _ _ _ _ _ hdd⟩
          rw [requestsOn_append, requestsOn_robotsEv, requestsOn_request_other _ _ _ hdd]
          rfl
    | err e =>
      rw [polite_fetch_err w s clock url j e hrb hn]
      dsimp only
      refine ⟨?_, by omega, ?_⟩
      · intro d' t h'
        have := hInv d' t h'
        omega
      · by_cases hdd : d = w.getDomain url
        · subst hdd
          refine Or.inr ⟨⟨wait_for_domain s (w.getDomain url) clock j,
            wait_for_domain s (w.getDomain url) clock j + w.dur url, false,
            effectiveDelay s (w.getDomain url)⟩,
            ?_, ?_, by dsimp only; omega, rfl, ?_, ?_⟩
          · rw [requestsOn_append, requestsOn_robotsEv, requestsOn_request_self]
            rfl
          · intro t0 h0
            exact wait_for_domain_ge s (w.getDomain url) clock j t0 h0
              (hInv (w.getDomain url) t0 h0)
          · intro hcon
            exact absurd hcon (by simp)
          · intro _
            rfl
        · refine Or.inl ⟨?_, rfl⟩
          rw [requestsOn_append, requestsOn_robotsEv, requestsOn_request_other _ _ _ hdd]
          rfl

/-- Trace-level invariant of a run of polite_fetch calls: the ledger stays
sane, the clock is monotone, the first request on `d` waits out the
incoming ledger stamp, and consecutive requests on `d` whose earlier
member succeeded are separated, start to start, by at least the effective
delay the limiter used for the later one. -/
theorem runPolite_chain (w : World) (d : Option String) :
    ∀ (calls : List PFCall) (s : LimiterState) (clock : Nat), StateInv s clock →
      StateInv (runPolite w s clock calls).1 (runPolite w s clock calls).2.1 ∧
      clock ≤ (runPolite w s clock calls).2.1 ∧
      (∀ t0, s.domain_last_request d = some t0 →
        ∀ rec, (requestsOn d (runPolite w s clock calls).2.2).head? = some rec →
          t0 + rec.delay ≤ rec.start) ∧
      List.Chain' (fun r1 r2 => r1.ok = true → r1.start + r2.delay ≤ r2.start)
        (requestsOn d (runPolite w s clock calls).2.2) := by
  intro calls
  induction calls with
  | nil =>
    intro s clock hInv
    refine ⟨hInv, le_refl _, ?_, ?_⟩
    · intro t0 _ rec hrec
      simp [runPolite, requestsOn, List.filterMap] at hrec
    · simp [runPolite, requestsOn, List.filterMap]
  | cons c rest ih =>
    intro s clock hInv
    have hInv' : StateInv s (clock + c.gap) :=
      fun d' t h => le_trans (hInv d' t h) (Nat.le_add_right _ _)
    have hstep := polite_fetch_step w s (clock + c.gap) c.url c.j d hInv'
    have hih := ih (polite_fetch w s (clock + c.gap) c.url c.j).1
      (polite_fetch w s (clock + c.gap) c.url c.j).2.1 hstep.1
    simp only [runPolite, requestsOn_append]
    rcases hstep.2.2 with ⟨hempty, hsame⟩ | ⟨rec, hone, hbound, hsf, hfin, hoktrue, hokfalse⟩
    · rw [hempty]
      simp only [List.nil_append]
      refine ⟨hih.1, by have h1 := hstep.2.1; have h2 := hih.2.1; omega, ?_, hih.2.2.2⟩
      intro t0 h0 rec hrec
      exact hih.2.2.1 t0 (by rw [hsame]; exact h0) rec hrec
    · rw [hone]
      simp only [List.cons_append, List.nil_append]
      refine ⟨hih.1, by have h1 := hstep.2.1; have h2 := hih.2.1; omega, ?_, ?_⟩
      · intro t0 h0 rec2 hrec2
        rw [List.head?_cons, Option.some.injEq] at hrec2
        rw [← hrec2]
        exact hbound t0 h0
      · rw [List.chain'_cons']
        refine ⟨?_, hih.2.2.2⟩
        intro r2 hr2 hok
        have h1 := hih.2.2.1 rec.finish (by rw [hfin] at hoktrue ⊢; exact hoktrue hok) r2 hr2
        omega

/-- Per-step state preservation: a polite_fetch call whose request on `d`
(if any) did not succeed leaves both ledger entries for `d` untouched. -/
theorem polite_fetch_preserve (w : World) (s : LimiterState) (clock : Nat) (url : String)
    (j : Nat) (d : Option String)
    (h : ∀ rec ∈ requestsOn d (polite_fetch w s clock url j).2.2.1, rec.ok = false) :
    (polite_fetch w s clock url j).1.domain_last_request d = s.domain_last_request d ∧
    (polite_fetch w s clock url j).1.domain_crawl_delay d = s.domain_crawl_delay d := by
  by_cases hrb : robotsDisallows w url
  · rw [polite_fetch_disallowed w s clock url j hrb]
    exact ⟨rfl, rfl⟩
  · rw [Bool.not_eq_true] at hrb
    cases hn : w.net url with
    | err e =>
      rw [polite_fetch_err w s clock url j e hrb hn]
      exact ⟨rfl, rfl⟩
    | ok r =>
      rw [polite_fetch_ok w s clock url j r hrb hn] at h ⊢
      by_cases hdd : d = w.getDomain url
      · exfalso
        subst hdd
        have hmem := h ⟨wait_for_domain s (w.getDomain url) clock j,
          wait_for_domain s (w.getDomain url) clock j + w.dur url, true,
          effectiveDelay s (w.getDomain url)⟩
        rw [requestsOn_append, requestsOn_robotsEv, requestsOn_request_self] at hmem
        have := hmem (by simp)
        simp at this
      · exact ⟨record_last_other _ _ _ _ _ hdd, record_crawl_other _ _ _ _ _ hdd⟩

/-- Trace-level state preservation: while no successful request to `d`
appears on the trace, the ledger entries for `d` keep their initial
values. -/
theorem runPolite_no_success_preserve (w : World) (d : Option String) :
    ∀ (calls : List PFCall) (s : LimiterState) (clock : Nat),
      (∀ rec ∈ requestsOn d (runPolite w s clock calls).2.2, rec.ok = false) →
      (runPolite w s clock calls).1.domain_last_request d = s.domain_last_request d ∧
      (runPolite w s clock calls).1.domain_crawl_delay d = s.domain_crawl_delay d := by
  intro calls
  induction calls with
  | nil =>
    intro s clock _
    exact ⟨rfl, rfl⟩
  | cons c rest ih =>
    intro s clock h
    simp only [runPolite, requestsOn_append] at h ⊢
    have h1 : ∀ rec ∈ requestsOn d (polite_fetch w s (clock + c.gap) c.url c.j).2.2.1,
        rec.ok = false :=
      fun rec hm => h rec (List.mem_append_left _ hm)
    have h2 : ∀ rec ∈ requestsOn d (runPolite w (polite_fetch w s (clock + c.gap) c.url c.j).1
        (polite_fetch w s (clock + c.gap) c.url c.j).2.1 rest).2.2, rec.ok = false :=
      fun rec hm => h rec (List.mem_append_right _ hm)
    have hs := polite_fetch_preserve w s (clock + c.gap) c.url c.j d h1
    have hr := ih (polite_fetch w s (clock + c.gap) c.url c.j).1
      (polite_fetch w s (clock + c.gap) c.url c.j).2.1 h2
    exact ⟨by rw [hr.1, hs.1], by rw [hr.2, hs.2]⟩

/-- Claim C1 (amended): on any run, consecutive actual requests to a domain
whose EARLIER member succeeded are separated, start to start, by at least
the effective delay the limiter used for the later one; and
`domain_last_request` is stamped only by a successful network attempt —
a robots-skip leaves the state untouched, and so does a failed attempt
(a raised RequestException skips `record_domain_request`). -/
theorem claim_C1_rate_limit (w : World) (d : Option String) (calls : List PFCall)
    (s : LimiterState) (clock : Nat) (hInv : StateInv s clock) :
    List.Chain' (fun r1 r2 => r1.ok = true → r1.start + r2.delay ≤ r2.start)
      (requestsOn d (runPolite w s clock calls).2.2) ∧
    (∀ url j, (polite_fetch w s clock url j).2.2.2 = PFResult.skipped →
      (polite_fetch w s clock url j).1 = s) ∧
    (∀ url j e, (polite_fetch w s clock url j).2.2.2 = PFResult.failed e →
      (polite_fetch w s clock url j).1 = s) ∧
    (∀ url j r, (polite_fetch w s clock url j).2.2.2 = PFResult.success r →
      (polite_fetch w s clock url j).1.domain_last_request (w.getDomain url) =
        some (polite_fetch w s clock url j).2.1) := by
  refine ⟨(runPolite_chain w d calls s clock hInv).2.2.2, ?_, ?_, ?_⟩
  · intro url j hres
    by_cases hrb : robotsDisallows w url
    · rw [polite_fetch_disallowed w s clock url j hrb]
    · rw [Bool.not_eq_true] at hrb
      cases hn : w.net url with
      | ok r =>
        rw [polite_fetch_ok w s clock url j r hrb hn] at hres
        simp at hres
      | err e =>
        rw [polite_fetch_err w s clock url j e hrb hn]
  · intro url j e hres
    by_cases hrb : robotsDisallows w url
    · rw [polite_fetch_disallowed w s clock url j hrb] at hres
      simp at hres
    · rw [Bool.not_eq_true] at hrb
      cases hn : w.net url with
      | ok r =>
        rw [polite_fetch_ok w s clock url j r hrb hn] at hres
        simp at hres
      | err e2 =>
        rw [polite_fetch_err w s clock url j e2 hrb hn]
  · intro url j r hres
    by_cases hrb : robotsDisallows w url
    · rw [polite_fetch_disallowed w s clock url j hrb] at hres
      simp at hres
    · rw [Bool.not_eq_true] at hrb
      cases hn : w.net url with
      | ok r2 =>
        rw [polite_fetch_ok w s clock url j r2 hrb hn]
        exact record_last_self _ _ _ _
      | err e =>
        rw [polite_fetch_err w s clock url j e hrb hn] at hres
        simp at hres

/-- A world whose only network outcome is a raised RequestException. -/
def wFail : World :=
  ⟨fun _ => some "a.com", fun _ => "/x", fun _ => none, fun _ => NetAttempt.err "boom",
   fun _ => 0, fun _ => "", fun _ => true, fun _ => true, fun _ => "TS", fun _ => 0⟩

/-- Concrete instantiation of the amended C1 theorem at the initial state. -/
theorem claim_C1_rate_limit_witness :
    StateInv initState 0 ∧
    List.Chain' (fun r1 r2 => r1.ok = true → r1.start + r2.delay ≤ r2.start)
      (requestsOn (some "a.com")
        (runPolite wFail initState 0 [⟨"https://a.com/x", 0, 0⟩]).2.2) := by
  have hInv : StateInv initState 0 := fun d t h => by cases h
  exact ⟨hInv,
    (claim_C1_rate_limit wFail (some "a.com") [⟨"https://a.com/x", 0, 0⟩] initState 0 hInv).1⟩

/-- Claim C1 as stated is false at a concrete input: polite_fetch makes an
actual network attempt that fails, and `domain_last_request` is NOT
stamped afterwards — the ledger entry for the domain is still empty, so a
following request to the same domain is issued with no wait at all. -/
theorem claim_C1_counterexample :
    (polite_fetch wFail initState 0 "https://a.com/x" 0).2.2.2 = PFResult.failed "boom" ∧
    requestsOn (some "a.com") (polite_fetch wFail initState 0 "https://a.com/x" 0).2.2.1 ≠ [] ∧
    (polite_fetch wFail initState 0 "https://a.com/x" 0).1.domain_last_request
      (some "a.com") = none ∧
    wait_for_domain (polite_fetch wFail initState 0 "https://a.com/x" 0).1
      (some "a.com") 0 0 = 0 := by
  refine ⟨rfl, ?_, rfl, rfl⟩
  decide

/-- Claim C7: when robots.txt cannot be retrieved for the domain (the
parser is None), polite_fetch never skips — it proceeds to an actual
attempt — and the delay the limiter applies to that request is the
configured default, provided no robots-declared crawl delay was recorded
for the domain earlier. -/
theorem claim_C7_permissive_default (w : World) (s : LimiterState) (clock : Nat)
    (url : String) (dd : String) (j : Nat)
    (hd : w.getDomain url = some dd)
    (hr : w.robots (some dd) = none)
    (hcd : s.domain_crawl_delay (some dd) = none) :
    (polite_fetch w s clock url j).2.2.2 ≠ PFResult.skipped ∧
    (∃ rec, requestsOn (some dd) (polite_fetch w s clock url j).2.2.1 = [rec] ∧
      rec.delay = DEFAULT_CRAWL_DELAY) := by
  have heff : effRp w url = none := by
    unfold effRp get_robots_parser_for_domain
    rw [hd]
    exact hr
  have hrb : robotsDisallows w url = false := by
    unfold robotsDisallows
    rw [heff]
  have hdelay : effectiveDelay s (w.getDomain url) = DEFAULT_CRAWL_DELAY := by
    unfold effectiveDelay
    rw [hd, hcd]
    rfl
  cases hn : w.net url with
  | ok r =>
    rw [polite_fetch_ok w s clock url j r hrb hn]
    refine ⟨by simp, ?_⟩
    dsimp only
    rw [hd] at hdelay ⊢
    rw [requestsOn_append, requestsOn_robotsEv, requestsOn_request_self]
    exact ⟨_, rfl, hdelay⟩
  | err e =>
    rw [polite_fetch_err w s clock url j e hrb hn]
    refine ⟨by simp, ?_⟩
    dsimp only
    rw [hd] at hdelay ⊢
    rw [requestsOn_append, requestsOn_robotsEv, requestsOn_request_self]
    exact ⟨_, rfl, hdelay⟩

/-- A world whose robots.txt retrieval always fails. -/
def wNoRobots : World :=
  ⟨fun _ => some "b.org", fun _ => "/r", fun _ => none,
   fun _ => NetAttempt.ok ⟨200, [37], "text/html", none, none⟩,
   fun _ => 1, fun _ => "h", fun _ => true, fun _ => true, fun _ => "TS", fun _ => 0⟩

/-- Concrete instantiation of the C7 theorem. -/
theorem claim_C7_permissive_default_witness :
    wNoRobots.getDomain "https://b.org/r" = some "b.org" ∧
    wNoRobots.robots (some "b.org") = none ∧
    initState.domain_crawl_delay (some "b.org") = none ∧
    (polite_fetch wNoRobots initState 0 "https://b.org/r" 0).2.2.2 ≠ PFResult.skipped ∧
    (∃ rec, requestsOn (some "b.org")
        (polite_fetch wNoRobots initState 0 "https://b.org/r" 0).2.2.1 = [rec] ∧
      rec.delay = DEFAULT_CRAWL_DELAY) := by
  have h := claim_C7_permissive_default wNoRobots initState 0 "https://b.org/r" "b.org" 0
    rfl rfl rfl
  exact ⟨rfl, rfl, rfl, h.1, h.2⟩

/-- Claim C9: the first request of a run to a domain is issued with no
politeness wait — wait_for_domain returns `now` unchanged when no prior
request is recorded — and until a successful actual request to the domain
completes, the effective delay stays the configured default and the
ledger entry stays empty, because the robots-declared crawl delay is read
and stored only by record_domain_request, which runs only after a
successful attempt. -/
theorem claim_C9_first_request (w : World) (d : Option String) (calls : List PFCall)
    (now j : Nat)
    (h : ∀ rec ∈ requestsOn d (runPolite w initState 0 calls).2.2, rec.ok = false) :
    wait_for_domain initState d now j = now ∧
    (runPolite w initState 0 calls).1.domain_last_request d = none ∧
    effectiveDelay (runPolite w initState 0 calls).1 d = DEFAULT_CRAWL_DELAY ∧
    wait_for_domain (runPolite w initState 0 calls).1 d now j = now := by
  have hp := runPolite_no_success_preserve w d calls initState 0 h
  refine ⟨wait_for_domain_none _ _ _ _ rfl, ?_, ?_, ?_⟩
  · rw [hp.1]
    rfl
  · unfold effectiveDelay
    rw [hp.2]
    rfl
  · exact wait_for_domain_none _ _ _ _ (by rw [hp.1]; rfl)

/-- Concrete instantiation of the C9 theorem: one failed call to the
domain, after which the limiter still imposes no wait and the default
delay. -/
theorem claim_C9_first_request_witness :
    (∀ rec ∈ requestsOn (some "a.com")
        (runPolite wFail initState 0 [⟨"https://a.com/x", 1, 2⟩]).2.2, rec.ok = false) ∧
    wait_for_domain initState (some "a.com") 7 1 = 7 ∧
    (runPolite wFail initState 0
        [⟨"https://a.com/x", 1, 2⟩]).1.domain_last_request (some "a.com") = none ∧
    effectiveDelay (runPolite wFail initState 0
        [⟨"https://a.com/x", 1, 2⟩]).1 (some "a.com") = DEFAULT_CRAWL_DELAY ∧
    wait_for_domain (runPolite wFail initState 0
        [⟨"https://a.com/x", 1, 2⟩]).1 (some "a.com") 7 1 = 7 := by
  have h : ∀ rec ∈ requestsOn (some "a.com")
      (runPolite wFail initState 0 [⟨"https://a.com/x", 1, 2⟩]).2.2, rec.ok = false := by
    decide
  have hc := claim_C9_first_request wFail (some "a.com") [⟨"https://a.com/x", 1, 2⟩] 7 1 h
  exact ⟨h, hc.1, hc.2.1, hc.2.2.1, hc.2.2.2⟩

/-! ## Error-propagation lemmas for the row loop -/

/-- Well-formedness of a Retry-After header value under Python's
`int(...)` followed by `time.sleep(...)`: it parses and is non-negative. -/
def retryAfterOk (ra : Option String) : Prop :=
  match ra with
  | none => True
  | some sv => ∃ v, parsePyInt sv = some v ∧ 0 ≤ v

theorem backoff429_ok (r : Response) (clock j : Nat) (h : retryAfterOk r.retry_after) :
    ∃ c2, backoff429 r clock j = Except.ok c2 := by
  unfold backoff429
  by_cases h429 : r.status_code = 429
  · rw [if_pos h429]
    cases hra : r.retry_after with
    | none => exact ⟨_, rfl⟩
    | some sv =>
      rw [hra] at h
      simp only [retryAfterOk] at h
      obtain ⟨v, hv, hv0⟩ := h
      dsimp only
      rw [hv]
      dsimp only
      rw [if_neg (by omega : ¬ v < 0)]
      exact ⟨_, rfl⟩
  · rw [if_neg h429]
    exact ⟨_, rfl⟩

/-- The content-plus-sidecar commit on the all-ADLS-writes-succeed path. -/
theorem commitGeneric_adls (w : World) (localBase outdir fn : String) (content : List Nat)
    (meta : Meta) (h1 : w.adlsOk fn = true) (h2 : w.adlsOk (fn ++ ".metadata.json") = true) :
    commitGeneric w true localBase outdir fn content meta =
      Except.ok [Event.commit outdir fn (Payload.bytes content),
        Event.commit outdir (fn ++ ".metadata.json") (Payload.meta meta)] := by
  unfold commitGeneric
  simp [h1, h2]

/-- The content-plus-sidecar commit on the all-local-writes-succeed path. -/
theorem commitGeneric_local (w : World) (localBase outdir fn : String) (content : List Nat)
    (meta : Meta) (h1 : w.localOk fn = true) (h2 : w.localOk (fn ++ ".metadata.json") = true) :
    commitGeneric w false localBase outdir fn content meta =
      Except.ok [Event.commit (localBase ++ "/" ++ outdir) fn (Payload.bytes content),
        Event.commit (localBase ++ "/" ++ outdir) (fn ++ ".metadata.json")
          (Payload.meta meta)] := by
  unfold commitGeneric
  simp [h1, h2]

theorem commitGeneric_ok (w : World) (adls : Bool) (localBase outdir fn : String)
    (content : List Nat) (meta : Meta)
    (hA : ∀ f, w.adlsOk f = true) (hL : ∀ f, w.localOk f = true) :
    ∃ evs, commitGeneric w adls localBase outdir fn content meta = Except.ok evs := by
  cases adls with
  | true => exact ⟨_, commitGeneric_adls w localBase outdir fn content meta (hA _) (hA _)⟩
  | false => exact ⟨_, commitGeneric_local w localBase outdir fn content meta (hL _) (hL _)⟩

theorem robotsSkipCommit_ok (w : World) (adls : Bool)
    (localBase outdir sn url ts notes : String)
    (hA : ∀ f, w.adlsOk f = true) (hL : ∀ f, w.localOk f = true) :
    ∃ evs, robotsSkipCommit w adls localBase outdir sn url ts notes = Except.ok evs := by
  unfold robotsSkipCommit
  cases adls with
  | true => simp [hA]
  | false => simp [hL]

/-- A successful polite_fetch result pins down the network oracle. -/
theorem polite_fetch_success_net (w : World) (s : LimiterState) (clock : Nat) (url : String)
    (j : Nat) (r : Response)
    (h : (polite_fetch w s clock url j).2.2.2 = PFResult.success r) :
    w.net url = NetAttempt.ok r := by
  by_cases hrb : robotsDisallows w url
  · rw [polite_fetch_disallowed w s clock url j hrb] at h
    simp at h
  · rw [Bool.not_eq_true] at hrb
    cases hn : w.net url with
    | ok r2 =>
      rw [polite_fetch_ok w s clock url j r2 hrb hn] at h
      simp at h
      simp [h]
    | err e =>
      rw [polite_fetch_err w s clock url j e hrb hn] at h
      simp at h

/-- The generic path never lets an exception escape as long as storage
writes succeed and any 429 response carries a well-formed Retry-After. -/
theorem genericPath_ok (w : World) (dry adls : Bool) (localBase : String) (s : LimiterState)
    (clock : Nat) (row : Row) (sn outdir basename ts : String) (j : Nat)
    (hA : ∀ f, w.adlsOk f = true) (hL : ∀ f, w.localOk f = true)
    (hRA : ∀ r, w.net row.url = NetAttempt.ok r → retryAfterOk r.retry_after) :
    ∃ out, genericPath w dry adls localBase s clock row sn outdir basename ts j =
      Except.ok out := by
  unfold genericPath
  by_cases hurl : row.url = ""
  · rw [if_pos hurl]
    exact ⟨_, rfl⟩
  · rw [if_neg hurl]
    by_cases hdis : mainDisallows w row.url
    · rw [if_pos hdis]
      obtain ⟨evs, hevs⟩ := robotsSkipCommit_ok w adls localBase outdir sn row.url ts
        row.notes hA hL
      rw [hevs]
      exact ⟨_, rfl⟩
    · rw [if_neg hdis]
      by_cases hdry : dry = true
      · rw [if_pos hdry]
        exact ⟨_, rfl⟩
      · rw [if_neg hdry]
        dsimp only
        cases hpf : (polite_fetch w s clock row.url j).2.2.2 with
        | skipped => exact ⟨_, rfl⟩
        | failed e => exact ⟨_, rfl⟩
        | success r =>
          dsimp only
          obtain ⟨ev2, hev2⟩ := commitGeneric_ok w adls localBase outdir
            (genericFilename basename ts (extFor r.content_type basename)) r.content
            (genericMeta w sn row.url ts r r.content row.notes row) hA hL
          rw [hev2]
          obtain ⟨c2, hc2⟩ := backoff429_ok r (polite_fetch w s clock row.url j).2.1 j
            (hRA r (polite_fetch_success_net w s clock row.url j r hpf))
          rw [hc2]
          exact ⟨_, rfl⟩

/-- Claim C8 (amended): transport errors, robots failures and API-helper
errors are all caught inside the row loop — for ANY network behavior,
every manifest row completes and the run proceeds — PROVIDED all storage
writes succeed and every 429 response carries a Retry-After value that
Python's `int` accepts as a non-negative number.  (The counterexample
shows the proviso is necessary: an unparseable Retry-After raises an
uncaught ValueError that terminates the whole run.) -/
theorem claim_C8_row_errors (w : World) (dry adls : Bool) (samKey : Option String)
    (localBase date : String)
    (hA : ∀ f, w.adlsOk f = true) (hL : ∀ f, w.localOk f = true)
    (hRA : ∀ u r, w.net u = NetAttempt.ok r → retryAfterOk r.retry_after) :
    (∀ (s : LimiterState) (clock : Nat) (row : Row) (ts : String) (j : Nat),
      exceptOk (processRow w dry adls samKey localBase date s clock row ts j) = true) ∧
    (∀ (rows : List Row) (s : LimiterState) (clock : Nat),
      exceptOk (runRows w dry adls samKey localBase date s clock rows) = true) := by
  have hmap : ∀ (ev12 : List Event) (x : Except String (LimiterState × Nat × List Event)),
      exceptOk (mapRowOut ev12 x) = exceptOk x := by
    intro ev12 x
    cases x <;> rfl
  have hrow : ∀ (s : LimiterState) (clock : Nat) (row : Row) (ts : String) (j : Nat),
      exceptOk (processRow w dry adls samKey localBase date s clock row ts j) = true := by
    intro s clock row ts j
    unfold processRow
    dsimp only
    repeat' split
    all_goals first
      | rfl
      | (rw [hmap]
         obtain ⟨out, hout⟩ := genericPath_ok w dry adls localBase s _ row
           (sourceNameOf row) (build_output_paths (sourceNameOf row) date)
           (basenameOf (w.getPath row.url)) ts j hA hL (fun r hr => hRA row.url r hr)
         rw [hout]
         rfl)
  refine ⟨hrow, ?_⟩
  intro rows
  induction rows with
  | nil =>
    intro s clock
    rfl
  | cons row rest ih =>
    intro s clock
    unfold runRows
    have h1 := hrow s clock row (w.fmtTs clock) (w.jit clock)
    cases hp : processRow w dry adls samKey localBase date s clock row
        (w.fmtTs clock) (w.jit clock) with
    | error e =>
      rw [hp] at h1
      exact absurd h1 (by simp [exceptOk])
    | ok out =>
      have h2 := ih out.1 out.2.1
      cases hr : runRows w dry adls samKey localBase date out.1 out.2.1 rest with
      | error e =>
        rw [hr] at h2
        exact absurd h2 (by simp [exceptOk])
      | ok out2 =>
        dsimp only
        rw [hr]
        rfl

/-- A benign world: robots unavailable, every fetch succeeds with a 200. -/
def wOk : World :=
  ⟨fun _ => some "ok.example", fun _ => "/f", fun _ => none,
   fun _ => NetAttempt.ok ⟨200, [10], "text/html", none, none⟩,
   fun _ => 1, fun _ => "h", fun _ => true, fun _ => true, fun _ => "TS", fun _ => 0⟩

/-- Concrete instantiation of the amended C8 theorem. -/
theorem claim_C8_row_errors_witness :
    exceptOk (processRow wOk false false none "data/raw/anduril" "20250101"
      initState 0 ⟨"acme", "", "https://ok.example/f", "", "", ""⟩ "TS" 0) = true ∧
    exceptOk (runRows wOk false false none "data/raw/anduril" "20250101" initState 0
      [⟨"acme", "", "https://ok.example/f", "", "", ""⟩]) = true := by
  have h := claim_C8_row_errors wOk false false none "data/raw/anduril" "20250101"
    (fun _ => rfl) (fun _ => rfl)
    (fun u r hu => by cases hu; exact trivial)
  exact ⟨h.1 initState 0 ⟨"acme", "", "https://ok.example/f", "", "", ""⟩ "TS" 0,
    h.2 [⟨"acme", "", "https://ok.example/f", "", "", ""⟩] initState 0⟩

/-- A world answering every fetch with HTTP 429 and a Retry-After header
Python's `int` rejects. -/
def w429 : World :=
  ⟨fun _ => some "c.net", fun _ => "/p", fun _ => none,
   fun _ => NetAttempt.ok ⟨429, [1, 2], "text/html", none, some "soon"⟩,
   fun _ => 1, fun _ => "h", fun _ => true, fun _ => true, fun _ => "TS", fun _ => 0⟩

/-- Claim C8 as stated is false at a concrete input: a row whose fetch
returns 429 with `Retry-After: soon` raises an uncaught ValueError from
`int("soon")` at the backoff (fetch_seed line 412) and the whole run
terminates, even though every fetch and write succeeded. -/
theorem claim_C8_counterexample :
    exceptOk (runRows w429 false false none "data/raw/anduril" "20250101"
      initState 0 [⟨"acme", "", "https://c.net/p", "", "", ""⟩]) = false := by
  decide

/-! ## Dry-run behavior -/

/-- Under dry-run, the USAspending branch stops at the gate of line 248:
no request, no events; it concludes the row exactly when the recipient
parameter was present. -/
theorem usaBranch_dry (w : World) (adls : Bool)
    (sn notes api_params outdir localBase ts : String) (clock : Nat) :
    usaBranch w true adls sn notes api_params outdir localBase ts clock =
      (clock, [], hasKey (parseParams api_params) "recipient_id" ||
        hasKey (parseParams api_params) "recipient_unique_id") := by
  unfold usaBranch
  by_cases hk : (hasKey (parseParams api_params) "recipient_id" ||
      hasKey (parseParams api_params) "recipient_unique_id") = true
  · rw [if_pos hk, hk]
    rfl
  · rw [if_neg hk]
    rw [Bool.not_eq_true] at hk
    rw [hk]

/-- Under dry-run, the SAM branch stops at the gate of line 291. -/
theorem samBranch_dry (w : World) (adls : Bool)
    (sn notes api_params outdir localBase ts : String) (clock : Nat) :
    samBranch w true adls sn notes api_params outdir localBase ts clock =
      (clock, [], true) := rfl

/-- The robots-skip artifact's shape when the write succeeds. -/
theorem robotsSkipCommit_shape (w : World) (adls : Bool)
    (localBase outdir sn url ts notes : String)
    (hA : ∀ f, w.adlsOk f = true) (hL : ∀ f, w.localOk f = true) :
    ∃ dir, robotsSkipCommit w adls localBase outdir sn url ts notes =
      Except.ok [Event.commit dir (sn ++ "_robots_skip_" ++ ts ++ ".json")
        (Payload.meta (robotsSkipMeta sn url ts notes))] := by
  unfold robotsSkipCommit
  cases adls with
  | true =>
    refine ⟨outdir, ?_⟩
    rw [if_pos rfl, if_pos (hA _)]
  | false =>
    refine ⟨localBase ++ "/" ++ outdir, ?_⟩
    rw [if_neg (by simp), if_pos (hL _)]

/-- Under dry-run the generic path performs the robots retrieval of the
pre-check, possibly writes the robots-skip metadata artifact, and issues
no request; the limiter state and clock are untouched. -/
theorem genericPath_dry (w : World) (adls : Bool) (localBase : String) (s : LimiterState)
    (clock : Nat) (row : Row) (sn outdir basename ts : String) (j : Nat)
    (hA : ∀ f, w.adlsOk f = true) (hL : ∀ f, w.localOk f = true) :
    ∃ evs, genericPath w true adls localBase s clock row sn outdir basename ts j =
        Except.ok (s, clock, evs) ∧
      requestCount evs = 0 ∧
      (∀ dir fn p, Event.commit dir fn p ∈ evs →
        ∃ m, p = Payload.meta m ∧ m.skipped_by_robots = some true) := by
  unfold genericPath
  by_cases hurl : row.url = ""
  · rw [if_pos hurl]
    refine ⟨[], rfl, rfl, ?_⟩
    intro dir fn p hmem
    cases hmem
  · rw [if_neg hurl]
    by_cases hdis : mainDisallows w row.url
    · rw [if_pos hdis]
      obtain ⟨dir, hshape⟩ := robotsSkipCommit_shape w adls localBase outdir sn row.url ts
        row.notes hA hL
      rw [hshape]
      refine ⟨_, rfl, rfl, ?_⟩
      intro dir2 fn2 p hmem
      rcases List.mem_append.mp hmem with h1 | h2
      · simp [get_robots_parser_for_domain] at h1
      · have h3 := List.mem_singleton.mp h2
        refine ⟨robotsSkipMeta sn row.url ts row.notes, ?_, rfl⟩
        injection h3 with ha hb hc
    · rw [if_neg hdis, if_pos rfl]
      refine ⟨_, rfl, rfl, ?_⟩
      intro dir fn p hmem
      simp [get_robots_parser_for_domain] at hmem

/-- Claim C5 (amended): dry-run issues no actual HTTP request and leaves
the limiter state and clock untouched, but it still performs the generic
pre-check's robots.txt retrieval for every row with a URL, and the only
storage writes it can make are robots-skip metadata artifacts — which it
does still write when robots disallows the URL. -/
theorem claim_C5_dry_run (w : World) (adls : Bool) (samKey : Option String)
    (localBase date : String) (s : LimiterState) (clock : Nat) (row : Row)
    (ts : String) (j : Nat)
    (hA : ∀ f, w.adlsOk f = true) (hL : ∀ f, w.localOk f = true) :
    ∃ evs, processRow w true adls samKey localBase date s clock row ts j =
        Except.ok (s, clock, evs) ∧
      requestCount evs = 0 ∧
      (∀ dir fn p, Event.commit dir fn p ∈ evs →
        ∃ m, p = Payload.meta m ∧ m.skipped_by_robots = some true) := by
  obtain ⟨evs, hgen, hreq, hcom⟩ := genericPath_dry w adls localBase s clock row
    (sourceNameOf row) (build_output_paths (sourceNameOf row) date)
    (basenameOf (w.getPath row.url)) ts j hA hL
  unfold processRow
  dsimp only
  rw [usaBranch_dry, samBranch_dry]
  repeat' split
  all_goals first
    | exact ⟨[], rfl, rfl, fun dir fn p hmem => by cases hmem⟩
    | (rw [hgen]
       exact ⟨evs, rfl, hreq, hcom⟩)

/-- A world whose robots.txt disallows everything. -/
def wDis : World :=
  ⟨fun _ => some "d.io", fun _ => "/q", fun _ => some ⟨fun _ => false, none, none⟩,
   fun _ => NetAttempt.ok ⟨200, [], "text/html", none, none⟩,
   fun _ => 1, fun _ => "h", fun _ => true, fun _ => true, fun _ => "TS", fun _ => 0⟩

/-- Concrete instantiation of the amended C5 theorem. -/
theorem claim_C5_dry_run_witness :
    ∃ evs, processRow wDis true false none "data/raw/anduril" "20250101" initState 0
        ⟨"acme", "", "https://d.io/q", "", "", ""⟩ "TS" 0 = Except.ok (initState, 0, evs) ∧
      requestCount evs = 0 ∧
      (∀ dir fn p, Event.commit dir fn p ∈ evs →
        ∃ m, p = Payload.meta m ∧ m.skipped_by_robots = some true) :=
  claim_C5_dry_run wDis false none "data/raw/anduril" "20250101" initState 0
    ⟨"acme", "", "https://d.io/q", "", "", ""⟩ "TS" 0 (fun _ => rfl) (fun _ => rfl)

/-- Claim C5 as stated is false at a concrete input: with dry-run set, a
generic row still performs one network operation (the robots.txt
retrieval of the pre-check) and still performs one storage write (the
robots-skip metadata artifact), not zero of each. -/
theorem claim_C5_counterexample :
    ∃ out, processRow wDis true false none "data/raw/anduril" "20250101" initState 0
        ⟨"acme", "", "https://d.io/q", "", "", ""⟩ "TS" 0 = Except.ok out ∧
      networkOps out.2.2 = 1 ∧ commitCount out.2.2 = 1 := by
  exact ⟨_, rfl, by decide, by decide⟩

/-! ## The robots cache that does not exist (claim C6) -/

theorem robotsFetchCount_append (a b : List Event) :
    robotsFetchCount (a ++ b) = robotsFetchCount a + robotsFetchCount b := by
  simp [robotsFetchCount, List.filter_append]

/-- With a parsed domain, polite_fetch's robots lookup is one retrieval. -/
theorem robotsEv_eq (w : World) (url : String) (dd : String)
    (hd : w.getDomain url = some dd) :
    robotsEv w url = [Event.robotsFetch (some dd)] := by
  unfold robotsEv get_robots_parser_for_domain
  rw [hd]

/-- With a parsed domain the two disallow checks coincide. -/
theorem robotsDisallows_eq_main (w : World) (url : String) (dd : String)
    (hd : w.getDomain url = some dd) :
    robotsDisallows w url = mainDisallows w url := by
  unfold robotsDisallows mainDisallows effRp get_robots_parser_for_domain
  rw [hd]

/-- The generic path of one allowed row performs exactly TWO robots.txt
retrievals for its domain: one in main's pre-check and a second inside
polite_fetch — there is no cache. -/
theorem genericPath_two_robots (w : World) (adls : Bool) (localBase : String)
    (s : LimiterState) (clock : Nat) (row : Row) (sn outdir basename ts : String)
    (j : Nat) (dd : String)
    (hurl : row.url ≠ "")
    (hd : w.getDomain row.url = some dd)
    (hdis : mainDisallows w row.url = false)
    (hA : ∀ f, w.adlsOk f = true) (hL : ∀ f, w.localOk f = true)
    (hRA : ∀ r, w.net row.url = NetAttempt.ok r → retryAfterOk r.retry_after) :
    ∃ out, genericPath w false adls localBase s clock row sn outdir basename ts j =
        Except.ok out ∧
      robotsFetchCount out.2.2 = 2 := by
  have hrb : robotsDisallows w row.url = false := by
    rw [robotsDisallows_eq_main w row.url dd hd]
    exact hdis
  have hev0 : robotsFetchCount (get_robots_parser_for_domain w (w.getDomain row.url)).2 = 1 := by
    unfold get_robots_parser_for_domain
    rfl
  have hev1 : robotsFetchCount (robotsEv w row.url) = 1 := by
    rw [robotsEv_eq w row.url dd hd]
    rfl
  unfold genericPath
  rw [if_neg hurl, if_neg (by rw [hdis]; simp), if_neg (by simp)]
  dsimp only
  cases hn : w.net row.url with
  | err e =>
    rw [polite_fetch_err w s clock row.url j e hrb hn]
    dsimp only
    refine ⟨_, rfl, ?_⟩
    rw [robotsFetchCount_append, robotsFetchCount_append, hev0, hev1]
    rfl
  | ok r =>
    rw [polite_fetch_ok w s clock row.url j r hrb hn]
    dsimp only
    cases adls with
    | true =>
      rw [commitGeneric_adls w localBase outdir _ _ _ (hA _) (hA _)]
      obtain ⟨c2, hc2⟩ := backoff429_ok r
        (wait_for_domain s (w.getDomain row.url) clock j + w.dur row.url) j (hRA r hn)
      rw [hc2]
      refine ⟨_, rfl, ?_⟩
      rw [robotsFetchCount_append, robotsFetchCount_append, robotsFetchCount_append,
        hev0, hev1]
      rfl
    | false =>
      rw [commitGeneric_local w localBase outdir _ _ _ (hL _) (hL _)]
      obtain ⟨c2, hc2⟩ := backoff429_ok r
        (wait_for_domain s (w.getDomain row.url) clock j + w.dur row.url) j (hRA r hn)
      rw [hc2]
      refine ⟨_, rfl, ?_⟩
      rw [robotsFetchCount_append, robotsFetchCount_append, robotsFetchCount_append,
        hev0, hev1]
      rfl

/-- Claim C6 (amended): no robots cache exists — every lookup performs a
fresh robots.txt retrieval, and processing a single generic manifest row
already retrieves the domain's robots.txt TWICE (main's pre-check plus
polite_fetch's own lookup); a failed retrieval is likewise not cached. -/
theorem claim_C6_no_robots_cache (w : World) (adls : Bool) (samKey : Option String)
    (localBase date : String) (s : LimiterState) (clock : Nat) (row : Row)
    (ts : String) (j : Nat) (dd : String)
    (husa : (strContains (strToLower row.url) "usaspending" ||
      strContains (strToLower row.api_endpoint_or_params) "usaspending") = false)
    (hsam : (strContains (strToLower row.url) "sam.gov" ||
      (strContains (strToLower row.api_endpoint_or_params) "sam" && samKey.isSome)) = false)
    (hurl : row.url ≠ "")
    (hd : w.getDomain row.url = some dd)
    (hdis : mainDisallows w row.url = false)
    (hA : ∀ f, w.adlsOk f = true) (hL : ∀ f, w.localOk f = true)
    (hRA : ∀ r, w.net row.url = NetAttempt.ok r → retryAfterOk r.retry_after) :
    ∃ out, processRow w false adls samKey localBase date s clock row ts j =
        Except.ok out ∧
      robotsFetchCount out.2.2 = 2 := by
  obtain ⟨out, hgen, hcount⟩ := genericPath_two_robots w adls localBase s clock row
    (sourceNameOf row) (build_output_paths (sourceNameOf row) date)
    (basenameOf (w.getPath row.url)) ts j dd hurl hd hdis hA hL hRA
  unfold processRow
  dsimp only
  rw [husa, hsam]
  simp only [Bool.false_eq_true, if_false]
  rw [hgen]
  exact ⟨_, rfl, hcount⟩

/-- A world whose robots.txt allows everything and whose fetches succeed
with a PDF response. -/
def wAllow : World :=
  ⟨fun _ => some "e.gov", fun _ => "/doc.pdf", fun _ => some ⟨fun _ => true, none, none⟩,
   fun _ => NetAttempt.ok ⟨200, [1, 2, 3], "application/pdf", none, none⟩,
   fun _ => 1, fun _ => "sha-of-body", fun _ => true, fun _ => true, fun _ => "TS", fun _ => 0⟩

/-- A plain generic manifest row. -/
def rowGen : Row := ⟨"acme", "", "https://e.gov/doc.pdf", "http", "", "note"⟩

/-- Concrete instantiation of the amended C6 theorem. -/
theorem claim_C6_no_robots_cache_witness :
    ∃ out, processRow wAllow false true none "data/raw/anduril" "20250101" initState 0
        rowGen "TS" 0 = Except.ok out ∧
      robotsFetchCount out.2.2 = 2 :=
  claim_C6_no_robots_cache wAllow true none "data/raw/anduril" "20250101" initState 0
    rowGen "TS" 0 "e.gov" (by decide) (by decide) (by decide) rfl (by decide)
    (fun _ => rfl) (fun _ => rfl) (fun r h => by cases h; exact trivial)

/-- Claim C6 as stated is false at a concrete input: one run over a single
generic row retrieves the domain's robots.txt twice, so the policy is NOT
resolved by at most one retrieval per run and later lookups are NOT
served from a cache. -/
theorem claim_C6_counterexample :
    ∃ out, processRow wAllow false true none "data/raw/anduril" "20250101" initState 0
        ⟨"bravo", "", "https://e.gov/doc.pdf", "", "", ""⟩ "TS" 0 = Except.ok out ∧
      robotsFetchCount out.2.2 = 2 ∧ ¬ robotsFetchCount out.2.2 ≤ 1 := by
  exact ⟨_, rfl, by decide, by decide⟩

/-! ## Structured API branches issue bare requests (claim C2) -/

/-- Shape of the USAspending branch on its success path: one raw request
starting at the entry clock (no robots retrieval, no wait), then the page
commit and its sidecar. -/
theorem usaBranch_ok_shape (w : World) (sn notes api_params outdir localBase ts : String)
    (clock : Nat) (r : Response)
    (hkey : (hasKey (parseParams api_params) "recipient_id" ||
      hasKey (parseParams api_params) "recipient_unique_id") = true)
    (hnet : w.net USASPENDING_ENDPOINT = NetAttempt.ok r)
    (h1 : w.adlsOk (sn ++ "_usaspending_" ++ ts ++ ".json") = true)
    (h2 : w.adlsOk (sn ++ "_usaspending_" ++ ts ++ ".json" ++ ".metadata.json") = true) :
    usaBranch w false true sn notes api_params outdir localBase ts clock =
      (clock + w.dur USASPENDING_ENDPOINT,
       [Event.request (w.getDomain USASPENDING_ENDPOINT)
          ⟨clock, clock + w.dur USASPENDING_ENDPOINT, true, 0⟩,
        Event.commit outdir (sn ++ "_usaspending_" ++ ts ++ ".json")
          (Payload.bytes r.content),
        Event.commit outdir (sn ++ "_usaspending_" ++ ts ++ ".json" ++ ".metadata.json")
          (Payload.meta (apiMeta sn USASPENDING_ENDPOINT ts r.status_code notes))],
       true) := by
  unfold usaBranch
  rw [if_pos hkey, if_neg (by simp)]
  dsimp only
  rw [hnet]
  dsimp only
  rw [if_pos rfl, if_pos h1, if_pos h2]
  rfl

/-- Shape of the SAM branch on its success path; same bare-request form. -/
theorem samBranch_ok_shape (w : World) (sn notes api_params outdir localBase ts : String)
    (clock : Nat) (r : Response)
    (hnet : w.net SAM_ENDPOINT = NetAttempt.ok r)
    (h1 : w.adlsOk (sn ++ "_sam_" ++ ts ++ ".json") = true)
    (h2 : w.adlsOk (sn ++ "_sam_" ++ ts ++ ".json" ++ ".metadata.json") = true) :
    samBranch w false true sn notes api_params outdir localBase ts clock =
      (clock + w.dur SAM_ENDPOINT,
       [Event.request (w.getDomain SAM_ENDPOINT)
          ⟨clock, clock + w.dur SAM_ENDPOINT, true, 0⟩,
        Event.commit outdir (sn ++ "_sam_" ++ ts ++ ".json") (Payload.bytes r.content),
        Event.commit outdir (sn ++ "_sam_" ++ ts ++ ".json" ++ ".metadata.json")
          (Payload.meta (apiMeta sn SAM_ENDPOINT ts r.status_code notes))],
       true) := by
  unfold samBranch
  rw [if_neg (by simp)]
  dsimp only
  rw [hnet]
  dsimp only
  rw [if_pos rfl, if_pos h1, if_pos h2]
  rfl

/-- Claim C2 (amended): each structured API strategy of fetch_seed.main
issues exactly ONE raw request per row — with NO robots-policy check, NO
rate-limit wait (the request starts at the branch's entry clock) and NO
`record_domain_request` (the limiter state comes back unchanged) — and
then commits the single page; no pagination loop exists in either branch. -/
theorem claim_C2_api_no_policy :
    (∀ (w : World) (samKey : Option String) (localBase date : String) (s : LimiterState)
       (clock : Nat) (row : Row) (ts : String) (j : Nat) (r : Response),
      (strContains (strToLower row.url) "usaspending" ||
        strContains (strToLower row.api_endpoint_or_params) "usaspending") = true →
      (hasKey (parseParams row.api_endpoint_or_params) "recipient_id" ||
        hasKey (parseParams row.api_endpoint_or_params) "recipient_unique_id") = true →
      w.net USASPENDING_ENDPOINT = NetAttempt.ok r →
      w.adlsOk (sourceNameOf row ++ "_usaspending_" ++ ts ++ ".json") = true →
      w.adlsOk (sourceNameOf row ++ "_usaspending_" ++ ts ++ ".json" ++
        ".metadata.json") = true →
      ∃ evs, processRow w false true samKey localBase date s clock row ts j =
          Except.ok (s, clock + w.dur USASPENDING_ENDPOINT, evs) ∧
        robotsFetchCount evs = 0 ∧
        requestCount evs = 1 ∧
        requestsOn (w.getDomain USASPENDING_ENDPOINT) evs =
          [⟨clock, clock + w.dur USASPENDING_ENDPOINT, true, 0⟩]) ∧
    (∀ (w : World) (samApiKey : String) (localBase date : String) (s : LimiterState)
       (clock : Nat) (row : Row) (ts : String) (j : Nat) (r : Response),
      (strContains (strToLower row.url) "usaspending" ||
        strContains (strToLower row.api_endpoint_or_params) "usaspending") = false →
      (strContains (strToLower row.url) "sam.gov" ||
        (strContains (strToLower row.api_endpoint_or_params) "sam" &&
          (some samApiKey : Option String).isSome)) = true →
      w.net SAM_ENDPOINT = NetAttempt.ok r →
      w.adlsOk (sourceNameOf row ++ "_sam_" ++ ts ++ ".json") = true →
      w.adlsOk (sourceNameOf row ++ "_sam_" ++ ts ++ ".json" ++ ".metadata.json") = true →
      ∃ evs, processRow w false true (some samApiKey) localBase date s clock row ts j =
          Except.ok (s, clock + w.dur SAM_ENDPOINT, evs) ∧
        robotsFetchCount evs = 0 ∧
        requestCount evs = 1 ∧
        requestsOn (w.getDomain SAM_ENDPOINT) evs =
          [⟨clock, clock + w.dur SAM_ENDPOINT, true, 0⟩]) := by
  constructor
  · intro w samKey localBase date s clock row ts j r husa hkey hnet h1 h2
    unfold processRow
    dsimp only
    rw [husa]
    simp only [if_true]
    rw [usaBranch_ok_shape w (sourceNameOf row) row.notes row.api_endpoint_or_params
      (build_output_paths (sourceNameOf row) date) localBase ts clock r hkey hnet h1 h2]
    dsimp only
    refine ⟨_, rfl, rfl, rfl, ?_⟩
    simp [requestsOn, reqOn, List.filterMap]
  · intro w samApiKey localBase date s clock row ts j r husa hsam hnet h1 h2
    unfold processRow
    dsimp only
    rw [husa]
    simp only [Bool.false_eq_true, if_false]
    rw [hsam]
    simp only [if_true]
    rw [samBranch_ok_shape w (sourceNameOf row) row.notes row.api_endpoint_or_params
      (build_output_paths (sourceNameOf row) date) localBase ts clock r hnet h1 h2]
    dsimp only
    refine ⟨_, rfl, rfl, rfl, ?_⟩
    simp [requestsOn, reqOn, List.filterMap]

/-- A world for the USAspending branch: the API responds 200 with a JSON
body. -/
def wUsa : World :=
  ⟨fun _ => some "api.usaspending.gov", fun _ => "/", fun _ => none,
   fun _ => NetAttempt.ok ⟨200, [1, 2], "application/json", none, none⟩,
   fun _ => 3, fun _ => "h", fun _ => true, fun _ => true, fun _ => "TS", fun _ => 0⟩

/-- A manifest row that triggers the USAspending branch. -/
def rowUsa : Row := ⟨"usasp", "", "https://www.usaspending.gov/x", "api", "recipient_id=abc", "n"⟩

/-- Concrete instantiation of the amended C2 theorem (USAspending part). -/
theorem claim_C2_api_no_policy_witness :
    ∃ evs, processRow wUsa false true none "data/raw/anduril" "20250101" initState 0
        rowUsa "TS" 0 = Except.ok (initState, 0 + wUsa.dur USASPENDING_ENDPOINT, evs) ∧
      robotsFetchCount evs = 0 ∧
      requestCount evs = 1 ∧
      requestsOn (wUsa.getDomain USASPENDING_ENDPOINT) evs =
        [⟨0, 0 + wUsa.dur USASPENDING_ENDPOINT, true, 0⟩] :=
  claim_C2_api_no_policy.1 wUsa none "data/raw/anduril" "20250101" initState 0 rowUsa
    "TS" 0 ⟨200, [1, 2], "application/json", none, none⟩
    (by decide) (by decide) rfl rfl rfl

/-- Claim C2 as stated is false at a concrete input: a USAspending row is
processed with ONE request and ZERO robots-policy checks, an unchanged
rate-limiter state, and no pagination loop — the request was not
preceded by the generic path's robots check or rate-limit wait. -/
theorem claim_C2_counterexample :
    ∃ out, processRow wUsa false true none "data/raw/anduril" "20250101" initState 0
        ⟨"alpha", "", "", "", "usaspending&recipient_id=xyz", ""⟩ "TS" 0 =
        Except.ok out ∧
      out.1 = initState ∧
      requestCount out.2.2 = 1 ∧
      robotsFetchCount out.2.2 = 0 := by
  exact ⟨_, rfl, rfl, by decide, by decide⟩

end SeedIngest

namespace NewsFetch

/-- Total number of storage writes the RSS loop performs. -/
def newsWriteCount (evs : List NewsEvent) : Nat :=
  (evs.filter (fun e => match e with
    | NewsEvent.commitJson _ _ _ => true
    | NewsEvent.commitHtml _ _ _ => true
    | NewsEvent.articleGet _ => false)).length

/-- Every write of the RSS loop is either the item JSON or the article
HTML: there is no third (sidecar) write. -/
theorem newsWriteCount_eq (evs : List NewsEvent) :
    newsWriteCount evs = jsonCommits evs + htmlCommits evs := by
  induction evs with
  | nil => rfl
  | cons e rest ih =>
    cases e with
    | commitJson a b c =>
      simp [newsWriteCount, jsonCommits, htmlCommits, List.filter] at ih ⊢
      omega
    | articleGet a =>
      simp [newsWriteCount, jsonCommits, htmlCommits, List.filter] at ih ⊢
      omega
    | commitHtml a b c =>
      simp [newsWriteCount, jsonCommits, htmlCommits, List.filter] at ih ⊢
      omega

end NewsFetch

namespace SeedIngest

theorem commitsOf_append (a b : List Event) :
    commitsOf (a ++ b) = commitsOf a ++ commitsOf b := by
  simp [commitsOf, List.filterMap_append]

theorem commitsOf_robotsEv (w : World) (url : String) :
    commitsOf (robotsEv w url) = [] := by
  unfold robotsEv get_robots_parser_for_domain
  cases w.getDomain url <;> simp [commitsOf, List.filterMap]

theorem backoff429_not429 (r : Response) (clock j : Nat) (h : r.status_code ≠ 429) :
    backoff429 r clock j = Except.ok clock := by
  unfold backoff429
  rw [if_neg h]

/-- Claim C4 (amended): a successful generic fetch commits exactly one
content artifact plus exactly one sidecar named content filename +
".metadata.json", whose `checksum_sha256` is the SHA-256 digest of the
same committed bytes; by contrast the usaspending_fetch pagination loop
performs exactly one write per retrieved page (never a second, sidecar
write), and the news loop's writes are exhaustively the item JSON and
the article HTML — neither script writes any metadata sidecar. -/
theorem claim_C4_sidecars :
    (∀ (w : World) (localBase : String) (s : LimiterState) (clock : Nat) (row : Row)
       (sn outdir basename ts : String) (j : Nat) (r : Response),
      row.url ≠ "" →
      mainDisallows w row.url = false →
      robotsDisallows w row.url = false →
      w.net row.url = NetAttempt.ok r →
      r.status_code ≠ 429 →
      w.adlsOk (genericFilename basename ts (extFor r.content_type basename)) = true →
      w.adlsOk (genericFilename basename ts (extFor r.content_type basename) ++
        ".metadata.json") = true →
      ∃ out, genericPath w false true localBase s clock row sn outdir basename ts j =
          Except.ok out ∧
        commitsOf out.2.2 =
          [(genericFilename basename ts (extFor r.content_type basename),
            Payload.bytes r.content),
           (genericFilename basename ts (extFor r.content_type basename) ++ ".metadata.json",
            Payload.meta (genericMeta w sn row.url ts r r.content row.notes row))] ∧
        (genericMeta w sn row.url ts r r.content row.notes row).checksum_sha256 =
          some (w.sha256_hex r.content)) ∧
    (∀ (pages : Nat → UsaFetch.ApiResp) (recipient_id rid rlevel : String)
       (fmt : Nat → String) (fuel page clock : Nat),
      UsaFetch.pageCommits
          (UsaFetch.usaLoop pages recipient_id rid rlevel fmt fuel page clock).1 =
        UsaFetch.okPageGets
          (UsaFetch.usaLoop pages recipient_id rid rlevel fmt fuel page clock).1) ∧
    (∀ (netN : String → NewsFetch.NewsResp) (fmt : Nat → String) (sn : String)
       (entries : List NewsFetch.RssEntry) (mx : Nat),
      NewsFetch.newsWriteCount (NewsFetch.fetch_rss_and_store netN fmt sn entries mx).1 =
        NewsFetch.jsonCommits (NewsFetch.fetch_rss_and_store netN fmt sn entries mx).1 +
        NewsFetch.htmlCommits (NewsFetch.fetch_rss_and_store netN fmt sn entries mx).1) := by
  refine ⟨?_, ?_, ?_⟩
  · intro w localBase s clock row sn outdir basename ts j r hurl hdis hrb hnet h429 h1 h2
    unfold genericPath
    rw [if_neg hurl, if_neg (by rw [hdis]; simp), if_neg (by simp)]
    dsimp only
    rw [polite_fetch_ok w s clock row.url j r hrb hnet]
    dsimp only
    rw [commitGeneric_adls w localBase outdir _ _ _ h1 h2,
      backoff429_not429 r _ j h429]
    refine ⟨_, rfl, ?_, rfl⟩
    dsimp only
    simp only [commitsOf_append, commitsOf_robotsEv]
    simp [commitsOf, List.filterMap, get_robots_parser_for_domain]
  · intro pages recipient_id rid rlevel fmt fuel page clock
    exact UsaFetch.usaLoop_one_write_per_page pages recipient_id rid rlevel fmt fuel page clock
  · intro netN fmt sn entries mx
    exact NewsFetch.newsWriteCount_eq _

/-- Concrete instantiation of the amended C4 theorem: a successful PDF
fetch commits the content and exactly one matching sidecar. -/
theorem claim_C4_sidecars_witness :
    ∃ out, genericPath wAllow false true "data/raw/anduril" initState 0 rowGen
        "acme" "anduril/acme/20250101" "doc.pdf" "TS" 0 = Except.ok out ∧
      commitsOf out.2.2 =
        [(genericFilename "doc.pdf" "TS" (extFor "application/pdf" "doc.pdf"),
          Payload.bytes [1, 2, 3]),
         (genericFilename "doc.pdf" "TS" (extFor "application/pdf" "doc.pdf") ++
           ".metadata.json",
          Payload.meta (genericMeta wAllow "acme" rowGen.url "TS"
            ⟨200, [1, 2, 3], "application/pdf", none, none⟩ [1, 2, 3] rowGen.notes rowGen))] ∧
      (genericMeta wAllow "acme" rowGen.url "TS"
          ⟨200, [1, 2, 3], "application/pdf", none, none⟩ [1, 2, 3] rowGen.notes
          rowGen).checksum_sha256 =
        some (wAllow.sha256_hex [1, 2, 3]) :=
  claim_C4_sidecars.1 wAllow "data/raw/anduril" initState 0 rowGen "acme"
    "anduril/acme/20250101" "doc.pdf" "TS" 0 ⟨200, [1, 2, 3], "application/pdf", none, none⟩
    (by decide) (by decide) (by decide) rfl (by decide) rfl rfl

end SeedIngest

namespace UsaFetch

/-- Claim C4 as stated is false at a concrete input: the pagination loop
commits a page artifact with NO accompanying metadata sidecar — the
trace holds exactly one page GET and one write, and no committed
filename ends in ".metadata.json". -/
theorem claim_C4_counterexample :
    pageCommits (fetch_usaspending_for_recipient
      (fun _ => ⟨200, 0⟩) (fun _ => "TT") "R2" 3).1 = 1 ∧
    (fetch_usaspending_for_recipient (fun _ => ⟨200, 0⟩) (fun _ => "TT") "R2" 3).1.length = 2 ∧
    (pageFilenames (fetch_usaspending_for_recipient
      (fun _ => ⟨200, 0⟩) (fun _ => "TT") "R2" 3).1).filter
        (fun fn => SeedIngest.strEndsWith fn ".metadata.json") = [] := by
  refine ⟨rfl, rfl, ?_⟩
  decide

end UsaFetch
